import Mathlib

/-!
# RSiena: `BehaviorLongitudinalData` and `MaxAlterEffect`

A shallow embedding of `src/data/BehaviorLongitudinalData.cpp` and
`src/model/effects/MaxAlterEffect.cpp`, followed by theorems about them.

Conventions of the embedding.

* C++ `int` values are integers (`Int`); every arithmetic operation on them
  that can leave the 32-bit range is reduced with `wrapInt` (two's
  complement).  Indices and counts (`observationCount()`, `n()`, actors,
  `nonMissingValueCount`) are natural numbers: they are non-negative and
  bounded by an `int`, so they never overflow.
* C++ `double` values are elements of an arbitrary linearly ordered field `K`
  (exact arithmetic; instantiate `K` with `ℚ` to evaluate, with `ℝ` for the
  reals).  Rounding is not modelled.
* `int **` / `bool **` planes are functions of `(observation, actor)`;
  `std::map<std::string, double>` is a function `String → Option K`.
* A C++ exception is the `Except.error` component of the result; the object
  state left behind by the throwing call is returned next to it.
-/

namespace siena

/-! ## Machine integers -/

/-- The value of `numeric_limits<int>::max()`. -/
def INT_MAX : Int := 2147483647

/-- The value of `numeric_limits<int>::min()`. -/
def INT_MIN : Int := -2147483648

/-- Two's-complement reduction of an integer to the 32-bit `int` range. -/
def wrapInt (x : Int) : Int := (x + 2147483648) % 4294967296 - 2147483648

/-! ## BehaviorLongitudinalData -/

/-- The two `logic_error`s thrown by `calculateProperties`; the fields are the
pieces the message is built from. -/
inductive Failure where
  | noValidData (name : String) (observation : Nat)
  | allEqual (name : String)
  deriving DecidableEq, Repr

/-- The data members of `BehaviorLongitudinalData`, with those of its base
`LongitudinalData` that the code reads (`id`, `name`, `n()`,
`observationCount()`). -/
structure BehaviorLongitudinalData (K : Type) where
  id : Int
  name : String
  n : Nat
  observationCount : Nat
  lvalues : Nat → Nat → Int
  lmissing : Nat → Nat → Bool
  lstructural : Nat → Nat → Bool
  lmin : Int
  lmax : Int
  loverallMean : K
  lrange : Int
  lsimilarityMean : K
  lsimilarityMeans : String → Option K

/-- The members the constructor leaves uninitialised (`lmin`, `lmax`,
`loverallMean`, `lrange`, `lsimilarityMean`): their initial content is
indeterminate, so it is an argument of the model of the constructor. -/
structure Indeterminate (K : Type) where
  lmin : Int
  lmax : Int
  loverallMean : K
  lrange : Int
  lsimilarityMean : K

namespace BehaviorLongitudinalData

variable {K : Type} [LinearOrderedField K]

/-- The constructor: all values 0, all flags false, the map empty. -/
def construct (id : Int) (name : String) (actorCount : Nat) (observationCount : Nat)
    (u : Indeterminate K) : BehaviorLongitudinalData K :=
  { id := id
    name := name
    n := actorCount
    observationCount := observationCount
    lvalues := fun _ _ => 0
    lmissing := fun _ _ => false
    lstructural := fun _ _ => false
    lmin := u.lmin
    lmax := u.lmax
    loverallMean := u.loverallMean
    lrange := u.lrange
    lsimilarityMean := u.lsimilarityMean
    lsimilarityMeans := fun _ => none }

/-- The reader `value(observation, actor)`. -/
def value (d : BehaviorLongitudinalData K) (observation actor : Nat) : Int :=
  d.lvalues observation actor

/-- The writer `value(observation, actor, value)`. -/
def setValue (d : BehaviorLongitudinalData K) (observation actor : Nat) (value : Int) :
    BehaviorLongitudinalData K :=
  { d with lvalues := fun o a =>
      if o = observation ∧ a = actor then value else d.lvalues o a }

/-- The row reader `values(observation)`. -/
def values (d : BehaviorLongitudinalData K) (observation : Nat) : Nat → Int :=
  d.lvalues observation

/-- The reader `missing(observation, actor)`. -/
def missing (d : BehaviorLongitudinalData K) (observation actor : Nat) : Bool :=
  d.lmissing observation actor

/-- The writer `missing(observation, actor, missing)`. -/
def setMissing (d : BehaviorLongitudinalData K) (observation actor : Nat) (missing : Bool) :
    BehaviorLongitudinalData K :=
  { d with lmissing := fun o a =>
      if o = observation ∧ a = actor then missing else d.lmissing o a }

/-- The reader `structural(observation, actor)`. -/
def structural (d : BehaviorLongitudinalData K) (observation actor : Nat) : Bool :=
  d.lstructural observation actor

/-- The writer `structural(observation, actor, structural)`. -/
def setStructural (d : BehaviorLongitudinalData K) (observation actor : Nat)
    (structural : Bool) : BehaviorLongitudinalData K :=
  { d with lstructural := fun o a =>
      if o = observation ∧ a = actor then structural else d.lstructural o a }

/-- The accessor `min()`. -/
def min (d : BehaviorLongitudinalData K) : Int := d.lmin

/-- The accessor `max()`. -/
def max (d : BehaviorLongitudinalData K) : Int := d.lmax

/-- The accessor `overallMean()`. -/
def overallMean (d : BehaviorLongitudinalData K) : K := d.loverallMean

/-- The accessor `range()`. -/
def range (d : BehaviorLongitudinalData K) : Int := d.lrange

/-- The function `similarity(a, b)`:
`1.0 - fabs(a - b) / this->lrange - this->lsimilarityMean`. -/
def similarity (d : BehaviorLongitudinalData K) (a b : K) : K :=
  1 - |a - b| / (d.lrange : K) - d.lsimilarityMean

/-- The function `similarityNetwork(a, b, networkName)`: the centering constant
is the map entry when `find` succeeds and 0 otherwise. -/
def similarityNetwork (d : BehaviorLongitudinalData K) (a b : K) (networkName : String) : K :=
  let similarityMean : K :=
    match d.lsimilarityMeans networkName with
    | some v => v
    | none => 0
  1 - |a - b| / (d.lrange : K) - similarityMean

/-- The getter `similarityMean()`. -/
def similarityMean (d : BehaviorLongitudinalData K) : K := d.lsimilarityMean

/-- The setter `similarityMean(similarityMean)`. -/
def setSimilarityMean (d : BehaviorLongitudinalData K) (similarityMean : K) :
    BehaviorLongitudinalData K :=
  { d with lsimilarityMean := similarityMean }

/-- The setter `similarityMeans(similarityMean, networkName)`:
`lsimilarityMeans[networkName] = similarityMean`. -/
def similarityMeans (d : BehaviorLongitudinalData K) (similarityMean : K)
    (networkName : String) : BehaviorLongitudinalData K :=
  { d with lsimilarityMeans := fun key =>
      if key = networkName then some similarityMean else d.lsimilarityMeans key }

/-- The variables the inner loop of `calculateProperties` updates: the members
`lmin`, `lmax` and the locals `sum`, `nonMissingValueCount`. -/
structure RowScan where
  lmin : Int
  lmax : Int
  sum : Int
  nonMissingValueCount : Nat
  deriving DecidableEq, Repr

/-- One iteration of the inner loop (body of `for actor`). -/
def scanActor (d : BehaviorLongitudinalData K) (i : Nat) (r : RowScan) (actor : Nat) :
    RowScan :=
  if d.lmissing i actor = false then
    { lmin := Min.min r.lmin (d.lvalues i actor)
      lmax := Max.max r.lmax (d.lvalues i actor)
      sum := wrapInt (r.sum + d.lvalues i actor)
      nonMissingValueCount := r.nonMissingValueCount + 1 }
  else r

/-- The inner loop over the given actors, in order. -/
def scanActors (d : BehaviorLongitudinalData K) (i : Nat) (actors : List Nat) (r : RowScan) :
    RowScan :=
  actors.foldl (scanActor d i) r

/-- The inner loop of observation `i`: `for (actor = 0; actor < n(); actor++)`
entered with the current `lmin`, `lmax` and with `sum = 0`,
`nonMissingValueCount = 0`. -/
def scanRow (d : BehaviorLongitudinalData K) (i : Nat) (lmin lmax : Int) : RowScan :=
  scanActors d i (List.range d.n)
    { lmin := lmin, lmax := lmax, sum := 0, nonMissingValueCount := 0 }

/-- The members the outer loop of `calculateProperties` updates. -/
structure Stats (K : Type) where
  lmin : Int
  lmax : Int
  loverallMean : K

/-- The outer loop over the given observations, in order.  It stops at the
first observation without a non-missing cell, with the failure and the members
as they are at the `throw`. -/
def scanObservations (d : BehaviorLongitudinalData K) :
    List Nat → Stats K → Stats K × Option Failure
  | [], s => (s, none)
  | i :: rest, s =>
    let r := scanRow d i s.lmin s.lmax
    if r.nonMissingValueCount = 0 then
      ({ s with lmin := r.lmin, lmax := r.lmax }, some (Failure.noValidData d.name i))
    else
      scanObservations d rest
        { lmin := r.lmin
          lmax := r.lmax
          loverallMean := s.loverallMean + (r.sum : K) / (r.nonMissingValueCount : K) }

/-- The method `calculateProperties()`.  The first component is `ok` when the
call returns and `error` when it throws; the second is the object after the
call. -/
def calculateProperties (d : BehaviorLongitudinalData K) :
    Except Failure Unit × BehaviorLongitudinalData K :=
  match scanObservations d (List.range d.observationCount)
      { lmin := INT_MAX, lmax := INT_MIN, loverallMean := 0 } with
  | (s, some failure) =>
    (Except.error failure,
      { d with lmin := s.lmin, lmax := s.lmax, loverallMean := s.loverallMean })
  | (s, none) =>
    let lrange := wrapInt (s.lmax - s.lmin)
    let d1 : BehaviorLongitudinalData K :=
      { d with
        lmin := s.lmin
        lmax := s.lmax
        loverallMean := s.loverallMean / (d.observationCount : K)
        lrange := lrange }
    if lrange = 0 then (Except.error (Failure.allEqual d.name), d1)
    else (Except.ok (), d1)

/-! ### Sequences of calls on one object -/

/-- A call of one of the mutating methods of `BehaviorLongitudinalData`. -/
inductive Call (K : Type) where
  | value (observation actor : Nat) (value : Int)
  | missing (observation actor : Nat) (missing : Bool)
  | structural (observation actor : Nat) (structural : Bool)
  | similarityMean (similarityMean : K)
  | similarityMeans (similarityMean : K) (networkName : String)
  | calculateProperties

/-- The object after one call (after a throwing `calculateProperties`, the
object as the exception leaves it). -/
def applyCall (d : BehaviorLongitudinalData K) : Call K → BehaviorLongitudinalData K
  | Call.value o a v => d.setValue o a v
  | Call.missing o a m => d.setMissing o a m
  | Call.structural o a s => d.setStructural o a s
  | Call.similarityMean v => d.setSimilarityMean v
  | Call.similarityMeans v networkName => d.similarityMeans v networkName
  | Call.calculateProperties => d.calculateProperties.2

/-- The object after a sequence of calls, the head of the list first. -/
def applyCalls (d : BehaviorLongitudinalData K) (calls : List (Call K)) :
    BehaviorLongitudinalData K :=
  calls.foldl applyCall d

/-! ### Reference definitions, in the words of the specification -/

/-- The value a call stores for the given network name: `some c` for the call
`similarityMeans(c, name)`, nothing for any other call. -/
def storedFor (name : String) : Call K → Option K
  | Call.similarityMeans c networkName => if networkName = name then some c else none
  | _ => none

/-- The value most recently stored for the given name by a `similarityMeans`
call of the sequence (the head of the list is the earliest call): the first
such value met when going through the calls from the latest one backwards. -/
def lastStored (calls : List (Call K)) (name : String) : Option K :=
  calls.reverse.findSome? (storedFor name)

/-- The outcome of a call of `calculateProperties` without the variable name
that the failure message carries: normal return, no valid data at an
observation, or all observed values equal. -/
inductive Outcome where
  | success
  | noValidData (observation : Nat)
  | allEqual
  deriving DecidableEq, Repr

/-- The outcome of a result of `calculateProperties`. -/
def outcome : Except Failure Unit → Outcome
  | Except.ok _ => Outcome.success
  | Except.error (Failure.noValidData _ observation) => Outcome.noValidData observation
  | Except.error (Failure.allEqual _) => Outcome.allEqual

/-- All stored cells of the object are `int` values. -/
def IntCells (d : BehaviorLongitudinalData K) : Prop :=
  ∀ o < d.observationCount, ∀ a < d.n, INT_MIN ≤ d.lvalues o a ∧ d.lvalues o a ≤ INT_MAX

/-- The actors whose cell is not missing at observation `o`. -/
def nonMissingActors (d : BehaviorLongitudinalData K) (o : Nat) : List Nat :=
  (List.range d.n).filter (fun a => d.lmissing o a = false)

/-- The exact sum of the non-missing values of observation `o`. -/
def observationSum (d : BehaviorLongitudinalData K) (o : Nat) : Int :=
  ((nonMissingActors d o).map (d.lvalues o)).sum

/-- The mean of the non-missing values of observation `o`. -/
def observationMean (d : BehaviorLongitudinalData K) (o : Nat) : K :=
  (observationSum d o : K) / ((nonMissingActors d o).length : K)

/-- The mean over the observations of the observation means. -/
def meanOfMeans (d : BehaviorLongitudinalData K) : K :=
  ((List.range d.observationCount).map (observationMean d)).sum / (d.observationCount : K)

/-- The flat mean of all non-missing cells of all observations. -/
def grandMean (d : BehaviorLongitudinalData K) : K :=
  (((List.range d.observationCount).map (observationSum d)).sum : K) /
    ((((List.range d.observationCount).map (fun o => (nonMissingActors d o).length)).sum : Nat) : K)

end BehaviorLongitudinalData

/-! ## MaxAlterEffect -/

/-- The network collaborator as the effect reads it: for each actor the alters
of its outgoing ties, in the order the tie iterator yields them. -/
structure Network where
  outTies : Nat → List Nat

/-- Modelled from the spec: `Network::outDegree` is not part of the sources at
hand; it is the number of outgoing ties of the actor. -/
def Network.outDegree (net : Network) (actor : Nat) : Nat :=
  (net.outTies actor).length

/-- The effect object: the flag `lminim`, and the two collaborators the methods
read, the network `pNetwork()` and the accessor `centeredValue(actor)` of the
base class. -/
structure MaxAlterEffect (K : Type) where
  lminim : Bool
  pNetwork : Network
  centeredValue : Nat → K

namespace MaxAlterEffect

variable {K : Type} [LinearOrderedField K]

/-- The body of the tie loop: replace the accumulator by the alter's value on a
strict improvement (`<` for a minimum, `>` for a maximum). -/
def improve (lminim : Bool) (values : Nat → K) (acc : K) (alter : Nat) : K :=
  if lminim then
    if values alter < acc then values alter else acc
  else
    if values alter > acc then values alter else acc

/-- The initial value of the accumulator: 1000 for a minimum, -1000 for a
maximum. -/
def sentinel (lminim : Bool) : K := if lminim then 1000 else -1000

/-- The method `calculateChangeContribution(actor, difference)`. -/
def calculateChangeContribution (e : MaxAlterEffect K) (actor : Nat) (difference : Int) : K :=
  if e.pNetwork.outDegree actor > 0 ∧ difference ≠ 0 then
    let contribution : K := sentinel e.lminim
    let contribution : K :=
      (e.pNetwork.outTies actor).foldl (improve e.lminim e.centeredValue) contribution
    contribution * (difference : K)
  else 0

/-- The method `egoStatistic(i, currentValues)`, with its two nested tie loops:
each round of the outer loop resets the accumulator and runs the inner loop. -/
def egoStatistic (e : MaxAlterEffect K) (i : Nat) (currentValues : Nat → K) : K :=
  if e.pNetwork.outDegree i > 0 then
    let statistic : K :=
      (e.pNetwork.outTies i).foldl
        (fun _ _ =>
          (e.pNetwork.outTies i).foldl (improve e.lminim currentValues) (sentinel e.lminim))
        0
    statistic * currentValues i
  else 0

/-! ### Reference definitions, in the words of the specification -/

/-- The statistic computed with one single scan of the out-ties. -/
def egoStatisticSingleScan (e : MaxAlterEffect K) (i : Nat) (currentValues : Nat → K) : K :=
  if e.pNetwork.outDegree i > 0 then
    (e.pNetwork.outTies i).foldl (improve e.lminim currentValues) (sentinel e.lminim) *
      currentValues i
  else 0

/-- The ego statistic as the specification words it, with one single pass over
the alters: 0 for an actor without alters; otherwise the ego's own value times
the running minimum (maximum) of the alters' current values, started at 1000
(-1000). -/
def singleScanStatistic (minim : Bool) (alters : List Nat) (i : Nat)
    (currentValues : Nat → K) : K :=
  match alters with
  | [] => 0
  | _ :: _ =>
    currentValues i *
      alters.foldl
        (fun acc alter =>
          if minim = true then Min.min acc (currentValues alter)
          else Max.max acc (currentValues alter))
        (if minim = true then 1000 else -1000)

/-- The effect with the out-tie list of one actor replaced. -/
def withOutTies (e : MaxAlterEffect K) (actor : Nat) (alters : List Nat) : MaxAlterEffect K :=
  { e with
    pNetwork := { outTies := fun x => if x = actor then alters else e.pNetwork.outTies x } }

/-- The value `m` is the maximum (the minimum when `minim`) of the values of the
listed alters: some alter has it, and no alter has a larger (smaller) one. -/
def IsExtremeOfAlters (minim : Bool) (values : Nat → K) (alters : List Nat) (m : K) : Prop :=
  (∃ a ∈ alters, values a = m) ∧
    ∀ a ∈ alters, if minim = true then m ≤ values a else values a ≤ m

end MaxAlterEffect

/-! ## Concrete data sets and effects -/

/-- A data object over `ℚ` with the given dimensions, rows of values and rows of
missing flags (cells outside the rows are 0 and not missing); the derived
statistics and the similarity mean start at 0, the map empty. -/
def dataOfRows (observationCount actorCount : Nat) (rows : List (List Int))
    (missingRows : List (List Bool)) : BehaviorLongitudinalData ℚ :=
  { id := 0
    name := "behavior"
    n := actorCount
    observationCount := observationCount
    lvalues := fun o a => (rows.getD o []).getD a 0
    lmissing := fun o a => (missingRows.getD o []).getD a false
    lstructural := fun _ _ => false
    lmin := 0
    lmax := 0
    loverallMean := 0
    lrange := 0
    lsimilarityMean := 0
    lsimilarityMeans := fun _ => none }

/-- Two observations of two actors, values `{[1,3],[2,4]}`, nothing missing. -/
def dataTwoByTwo : BehaviorLongitudinalData ℚ := dataOfRows 2 2 [[1, 3], [2, 4]] []

/-- Two observations of two actors, every cell 5, nothing missing. -/
def dataAllFive : BehaviorLongitudinalData ℚ := dataOfRows 2 2 [[5, 5], [5, 5]] []

/-- Three observations of two actors, every cell 5; observations 1 and 2 are
entirely missing. -/
def dataMissingRows : BehaviorLongitudinalData ℚ :=
  dataOfRows 3 2 [[5, 5], [5, 5], [5, 5]] [[false, false], [true, true], [true, true]]

/-- Two observations of two actors, values `{[1,3],[2,4]}`; the cell of actor 1
at observation 0 is missing. -/
def dataOneMissing : BehaviorLongitudinalData ℚ :=
  dataOfRows 2 2 [[1, 3], [2, 4]] [[false, true]]

/-- One observation of two actors with values 1 and `INT_MAX`: their exact sum
is not an `int`. -/
def dataLargeSum : BehaviorLongitudinalData ℚ := dataOfRows 1 2 [[1, 2147483647]] []

/-- One observation of two actors with values -1 and `INT_MAX`: their exact
difference is not an `int`. -/
def dataLargeRange : BehaviorLongitudinalData ℚ := dataOfRows 1 2 [[-1, 2147483647]] []

/-- No observation at all (two actors). -/
def dataNoObservation : BehaviorLongitudinalData ℚ := dataOfRows 0 2 [] []

/-- An effect over `ℚ`: actor 0 has out-ties to the actors 1, 2, 3, whose
centered values are 2, 5, -1; its own centered value is 3; the other actors
have no out-ties. -/
def effectThreeAlters (minim : Bool) : MaxAlterEffect ℚ :=
  { lminim := minim
    pNetwork := { outTies := fun actor => if actor = 0 then [1, 2, 3] else [] }
    centeredValue := fun actor => ([3, 2, 5, -1] : List ℚ).getD actor 0 }

/-- An effect over `ℚ`: actor 0 has one out-tie, to actor 1, and every centered
value is beyond the initial value of the accumulator: -2000 for a maximum,
2000 for a minimum. -/
def effectFarAlter (minim : Bool) : MaxAlterEffect ℚ :=
  { lminim := minim
    pNetwork := { outTies := fun actor => if actor = 0 then [1] else [] }
    centeredValue := fun _ => if minim then 2000 else -2000 }

/-- Some content for the members the constructor leaves uninitialised. -/
def indeterminateExample : Indeterminate ℚ :=
  { lmin := 7, lmax := -3, loverallMean := 11, lrange := 0, lsimilarityMean := 13 }

/-- A loading sequence: the values `{[1,3],[2,4]}` are written,
`calculateProperties` is called, then a constant is stored for
"friendship", one for "advice", and a second one for "friendship". -/
def callsExample : List (BehaviorLongitudinalData.Call ℚ) :=
  [BehaviorLongitudinalData.Call.value 0 0 1, BehaviorLongitudinalData.Call.value 0 1 3,
    BehaviorLongitudinalData.Call.value 1 0 2, BehaviorLongitudinalData.Call.value 1 1 4,
    BehaviorLongitudinalData.Call.calculateProperties,
    BehaviorLongitudinalData.Call.similarityMeans (1 / 4) "friendship",
    BehaviorLongitudinalData.Call.similarityMeans (1 / 2) "advice",
    BehaviorLongitudinalData.Call.similarityMeans (3 / 4) "friendship"]

/-- A variant of `dataOneMissing` with the same dimensions, missing plane and
non-missing values: the missing cell holds 99 instead of 3, every structural
flag is set, and the stored statistics and similarity constants differ. -/
def dataOneMissingVariant : BehaviorLongitudinalData ℚ :=
  { dataOfRows 2 2 [[1, 99], [2, 4]] [[false, true]] with
    lstructural := fun _ _ => true
    lmin := 5
    lmax := -5
    loverallMean := 17
    lrange := 8
    lsimilarityMean := 1 / 2
    lsimilarityMeans := fun _ => some 1 }

/-- Current values that differ from the centered values of
`effectThreeAlters`: 10 for actor 0, and 7, -4, 6 for its alters 1, 2, 3. -/
def currentValuesExample : Nat → ℚ := fun actor => ([10, 7, -4, 6] : List ℚ).getD actor 0

/-! ## Theorems -/

set_option linter.unusedSectionVars false

namespace BehaviorLongitudinalData

variable {K : Type} [LinearOrderedField K]

/-! ### The inner and outer loops of `calculateProperties` -/

theorem wrapInt_of_int {x : Int} (h1 : INT_MIN ≤ x) (h2 : x ≤ INT_MAX) : wrapInt x = x := by
  unfold wrapInt; unfold INT_MIN at h1; unfold INT_MAX at h2; omega

theorem wrapInt_add_wrapInt (x y : Int) : wrapInt (wrapInt x + y) = wrapInt (x + y) := by
  unfold wrapInt; omega

theorem scanActors_nil (d : BehaviorLongitudinalData K) (i : Nat) (r : RowScan) :
    scanActors d i [] r = r := rfl

theorem scanActors_cons (d : BehaviorLongitudinalData K) (i a : Nat) (l : List Nat)
    (r : RowScan) : scanActors d i (a :: l) r = scanActors d i l (scanActor d i r a) := rfl

theorem scanActors_count (d : BehaviorLongitudinalData K) (i : Nat) (l : List Nat)
    (r : RowScan) :
    (scanActors d i l r).nonMissingValueCount =
      r.nonMissingValueCount + (l.filter (fun a => d.lmissing i a = false)).length := by
  induction l generalizing r with
  | nil => simp [scanActors_nil]
  | cons a l ih =>
    rw [scanActors_cons, ih]
    by_cases h : d.lmissing i a = false
    · simp [scanActor, h]; omega
    · simp [scanActor, h]

theorem scanActors_sum (d : BehaviorLongitudinalData K) (i : Nat) (l : List Nat)
    (r : RowScan) (hr : wrapInt r.sum = r.sum) :
    (scanActors d i l r).sum =
      wrapInt (r.sum + ((l.filter (fun a => d.lmissing i a = false)).map (d.lvalues i)).sum) := by
  induction l generalizing r with
  | nil => simp [scanActors_nil, hr]
  | cons a l ih =>
    rw [scanActors_cons]
    by_cases h : d.lmissing i a = false
    · rw [ih]
      · simp [scanActor, h, wrapInt_add_wrapInt, add_assoc]
      · simp only [scanActor, h, if_true]
        unfold wrapInt; omega
    · rw [ih]
      · simp [scanActor, h]
      · simpa [scanActor, h] using hr

theorem scanActors_lmin_le (d : BehaviorLongitudinalData K) (i : Nat) (l : List Nat)
    (r : RowScan) :
    (scanActors d i l r).lmin ≤ r.lmin ∧
      ∀ a ∈ l, d.lmissing i a = false → (scanActors d i l r).lmin ≤ d.lvalues i a := by
  induction l generalizing r with
  | nil => simp [scanActors_nil]
  | cons a l ih =>
    rw [scanActors_cons]
    obtain ⟨h1, h2⟩ := ih (scanActor d i r a)
    by_cases h : d.lmissing i a = false
    · have hs : (scanActor d i r a).lmin = Min.min r.lmin (d.lvalues i a) := by
        simp [scanActor, h]
      rw [hs] at h1
      refine ⟨le_trans h1 (min_le_left _ _), ?_⟩
      intro b hb hnm
      rcases List.mem_cons.mp hb with rfl | hb
      · exact le_trans h1 (min_le_right _ _)
      · exact h2 b hb hnm
    · have hs : scanActor d i r a = r := by simp [scanActor, h]
      rw [hs] at h1 h2 ⊢
      refine ⟨h1, ?_⟩
      intro b hb hnm
      rcases List.mem_cons.mp hb with rfl | hb
      · exact absurd hnm h
      · exact h2 b hb hnm

theorem scanActors_lmin_attained (d : BehaviorLongitudinalData K) (i : Nat) (l : List Nat)
    (r : RowScan) :
    (scanActors d i l r).lmin = r.lmin ∨
      ∃ a ∈ l, d.lmissing i a = false ∧ d.lvalues i a = (scanActors d i l r).lmin := by
  induction l generalizing r with
  | nil => simp [scanActors_nil]
  | cons a l ih =>
    rw [scanActors_cons]
    rcases ih (scanActor d i r a) with h1 | ⟨b, hb, hnm, hv⟩
    · by_cases h : d.lmissing i a = false
      · have hs : (scanActor d i r a).lmin = Min.min r.lmin (d.lvalues i a) := by
          simp [scanActor, h]
        rw [hs] at h1
        rcases min_choice r.lmin (d.lvalues i a) with hc | hc
        · left; rw [h1, hc]
        · right; exact ⟨a, List.mem_cons_self _ _, h, by rw [h1, hc]⟩
      · have hs : scanActor d i r a = r := by simp [scanActor, h]
        rw [hs] at h1 ⊢
        left; exact h1
    · right; exact ⟨b, List.mem_cons_of_mem _ hb, hnm, hv⟩

theorem scanActors_lmax_ge (d : BehaviorLongitudinalData K) (i : Nat) (l : List Nat)
    (r : RowScan) :
    r.lmax ≤ (scanActors d i l r).lmax ∧
      ∀ a ∈ l, d.lmissing i a = false → d.lvalues i a ≤ (scanActors d i l r).lmax := by
  induction l generalizing r with
  | nil => simp [scanActors_nil]
  | cons a l ih =>
    rw [scanActors_cons]
    obtain ⟨h1, h2⟩ := ih (scanActor d i r a)
    by_cases h : d.lmissing i a = false
    · have hs : (scanActor d i r a).lmax = Max.max r.lmax (d.lvalues i a) := by
        simp [scanActor, h]
      rw [hs] at h1
      refine ⟨le_trans (le_max_left _ _) h1, ?_⟩
      intro b hb hnm
      rcases List.mem_cons.mp hb with rfl | hb
      · exact le_trans (le_max_right _ _) h1
      · exact h2 b hb hnm
    · have hs : scanActor d i r a = r := by simp [scanActor, h]
      rw [hs] at h1 h2 ⊢
      refine ⟨h1, ?_⟩
      intro b hb hnm
      rcases List.mem_cons.mp hb with rfl | hb
      · exact absurd hnm h
      · exact h2 b hb hnm

theorem scanActors_lmax_attained (d : BehaviorLongitudinalData K) (i : Nat) (l : List Nat)
    (r : RowScan) :
    (scanActors d i l r).lmax = r.lmax ∨
      ∃ a ∈ l, d.lmissing i a = false ∧ d.lvalues i a = (scanActors d i l r).lmax := by
  induction l generalizing r with
  | nil => simp [scanActors_nil]
  | cons a l ih =>
    rw [scanActors_cons]
    rcases ih (scanActor d i r a) with h1 | ⟨b, hb, hnm, hv⟩
    · by_cases h : d.lmissing i a = false
      · have hs : (scanActor d i r a).lmax = Max.max r.lmax (d.lvalues i a) := by
          simp [scanActor, h]
        rw [hs] at h1
        rcases max_choice r.lmax (d.lvalues i a) with hc | hc
        · left; rw [h1, hc]
        · right; exact ⟨a, List.mem_cons_self _ _, h, by rw [h1, hc]⟩
      · have hs : scanActor d i r a = r := by simp [scanActor, h]
        rw [hs] at h1 ⊢
        left; exact h1
    · right; exact ⟨b, List.mem_cons_of_mem _ hb, hnm, hv⟩


theorem scanRow_count (d : BehaviorLongitudinalData K) (i : Nat) (lo hi : Int) :
    (scanRow d i lo hi).nonMissingValueCount = (nonMissingActors d i).length := by
  simp [scanRow, scanActors_count, nonMissingActors]

theorem scanRow_sum (d : BehaviorLongitudinalData K) (i : Nat) (lo hi : Int) :
    (scanRow d i lo hi).sum = wrapInt (observationSum d i) := by
  unfold scanRow
  rw [scanActors_sum]
  · simp [observationSum, nonMissingActors]
  · rfl

theorem mem_nonMissingActors (d : BehaviorLongitudinalData K) (i a : Nat) :
    a ∈ nonMissingActors d i ↔ a < d.n ∧ d.lmissing i a = false := by
  simp [nonMissingActors]

theorem count_eq_zero_iff (d : BehaviorLongitudinalData K) (i : Nat) :
    (nonMissingActors d i).length = 0 ↔ ∀ a < d.n, d.lmissing i a = true := by
  rw [List.length_eq_zero, List.eq_nil_iff_forall_not_mem]
  constructor
  · intro h a ha
    by_contra hm
    exact h a ((mem_nonMissingActors d i a).mpr ⟨ha, by simpa using hm⟩)
  · intro h a ha
    obtain ⟨h1, h2⟩ := (mem_nonMissingActors d i a).mp ha
    rw [h a h1] at h2
    exact Bool.noConfusion h2

theorem scanRow_lmin_le (d : BehaviorLongitudinalData K) (i : Nat) (lo hi : Int) :
    (scanRow d i lo hi).lmin ≤ lo ∧
      ∀ a < d.n, d.lmissing i a = false → (scanRow d i lo hi).lmin ≤ d.lvalues i a := by
  obtain ⟨h1, h2⟩ := scanActors_lmin_le d i (List.range d.n)
    { lmin := lo, lmax := hi, sum := 0, nonMissingValueCount := 0 }
  exact ⟨h1, fun a ha hnm => h2 a (List.mem_range.mpr ha) hnm⟩

theorem scanRow_lmin_attained (d : BehaviorLongitudinalData K) (i : Nat) (lo hi : Int) :
    (scanRow d i lo hi).lmin = lo ∨
      ∃ a < d.n, d.lmissing i a = false ∧ d.lvalues i a = (scanRow d i lo hi).lmin := by
  rcases scanActors_lmin_attained d i (List.range d.n)
    { lmin := lo, lmax := hi, sum := 0, nonMissingValueCount := 0 } with h | ⟨a, ha, h1, h2⟩
  · exact Or.inl h
  · exact Or.inr ⟨a, List.mem_range.mp ha, h1, h2⟩

theorem scanRow_lmax_ge (d : BehaviorLongitudinalData K) (i : Nat) (lo hi : Int) :
    hi ≤ (scanRow d i lo hi).lmax ∧
      ∀ a < d.n, d.lmissing i a = false → d.lvalues i a ≤ (scanRow d i lo hi).lmax := by
  obtain ⟨h1, h2⟩ := scanActors_lmax_ge d i (List.range d.n)
    { lmin := lo, lmax := hi, sum := 0, nonMissingValueCount := 0 }
  exact ⟨h1, fun a ha hnm => h2 a (List.mem_range.mpr ha) hnm⟩

theorem scanRow_lmax_attained (d : BehaviorLongitudinalData K) (i : Nat) (lo hi : Int) :
    (scanRow d i lo hi).lmax = hi ∨
      ∃ a < d.n, d.lmissing i a = false ∧ d.lvalues i a = (scanRow d i lo hi).lmax := by
  rcases scanActors_lmax_attained d i (List.range d.n)
    { lmin := lo, lmax := hi, sum := 0, nonMissingValueCount := 0 } with h | ⟨a, ha, h1, h2⟩
  · exact Or.inl h
  · exact Or.inr ⟨a, List.mem_range.mp ha, h1, h2⟩

theorem scanObservations_cons_fail (d : BehaviorLongitudinalData K) (i : Nat) (l : List Nat)
    (s : Stats K) (h : (nonMissingActors d i).length = 0) :
    scanObservations d (i :: l) s =
      ({ s with lmin := (scanRow d i s.lmin s.lmax).lmin, lmax := (scanRow d i s.lmin s.lmax).lmax },
        some (Failure.noValidData d.name i)) := by
  simp [scanObservations, scanRow_count, h]

theorem scanObservations_cons_ok (d : BehaviorLongitudinalData K) (i : Nat) (l : List Nat)
    (s : Stats K) (h : (nonMissingActors d i).length ≠ 0) :
    scanObservations d (i :: l) s =
      scanObservations d l
        { lmin := (scanRow d i s.lmin s.lmax).lmin
          lmax := (scanRow d i s.lmin s.lmax).lmax
          loverallMean := s.loverallMean +
            (wrapInt (observationSum d i) : K) / ((nonMissingActors d i).length : K) } := by
  simp [scanObservations, scanRow_count, scanRow_sum, h]

theorem scanObservations_failure (d : BehaviorLongitudinalData K) (l : List Nat) (s : Stats K) :
    (scanObservations d l s).2 =
      (l.find? (fun i => decide ((nonMissingActors d i).length = 0))).map
        (Failure.noValidData d.name) := by
  induction l generalizing s with
  | nil => simp [scanObservations]
  | cons i l ih =>
    by_cases h : (nonMissingActors d i).length = 0
    · rw [scanObservations_cons_fail d i l s h, List.find?_cons_of_pos _ (by simp [h])]
      rfl
    · rw [scanObservations_cons_ok d i l s h, ih, List.find?_cons_of_neg _ (by simp [h])]

theorem scanObservations_mean (d : BehaviorLongitudinalData K) (l : List Nat) (s : Stats K)
    (hne : ∀ i ∈ l, (nonMissingActors d i).length ≠ 0) :
    (scanObservations d l s).1.loverallMean =
      s.loverallMean +
        (l.map (fun i => (wrapInt (observationSum d i) : K) /
          ((nonMissingActors d i).length : K))).sum := by
  induction l generalizing s with
  | nil => simp [scanObservations]
  | cons i l ih =>
    rw [scanObservations_cons_ok d i l s (hne i (List.mem_cons_self _ _)),
      ih _ (fun j hj => hne j (List.mem_cons_of_mem _ hj))]
    simp [add_assoc]

theorem scanObservations_lmin_le (d : BehaviorLongitudinalData K) (l : List Nat) (s : Stats K)
    (hne : ∀ i ∈ l, (nonMissingActors d i).length ≠ 0) :
    (scanObservations d l s).1.lmin ≤ s.lmin ∧
      ∀ i ∈ l, ∀ a < d.n, d.lmissing i a = false →
        (scanObservations d l s).1.lmin ≤ d.lvalues i a := by
  induction l generalizing s with
  | nil => simp [scanObservations]
  | cons i l ih =>
    rw [scanObservations_cons_ok d i l s (hne i (List.mem_cons_self _ _))]
    obtain ⟨h1, h2⟩ := ih
      { lmin := (scanRow d i s.lmin s.lmax).lmin
        lmax := (scanRow d i s.lmin s.lmax).lmax
        loverallMean := s.loverallMean +
          (wrapInt (observationSum d i) : K) / ((nonMissingActors d i).length : K) }
      (fun j hj => hne j (List.mem_cons_of_mem _ hj))
    obtain ⟨r1, r2⟩ := scanRow_lmin_le d i s.lmin s.lmax
    refine ⟨le_trans h1 r1, ?_⟩
    intro j hj a ha hnm
    rcases List.mem_cons.mp hj with rfl | hj
    · exact le_trans h1 (r2 a ha hnm)
    · exact h2 j hj a ha hnm

theorem scanObservations_lmin_attained (d : BehaviorLongitudinalData K) (l : List Nat)
    (s : Stats K) (hne : ∀ i ∈ l, (nonMissingActors d i).length ≠ 0) :
    (scanObservations d l s).1.lmin = s.lmin ∨
      ∃ i ∈ l, ∃ a < d.n, d.lmissing i a = false ∧
        d.lvalues i a = (scanObservations d l s).1.lmin := by
  induction l generalizing s with
  | nil => simp [scanObservations]
  | cons i l ih =>
    rw [scanObservations_cons_ok d i l s (hne i (List.mem_cons_self _ _))]
    rcases ih
      { lmin := (scanRow d i s.lmin s.lmax).lmin
        lmax := (scanRow d i s.lmin s.lmax).lmax
        loverallMean := s.loverallMean +
          (wrapInt (observationSum d i) : K) / ((nonMissingActors d i).length : K) }
      (fun j hj => hne j (List.mem_cons_of_mem _ hj)) with h | ⟨j, hj, a, ha, hnm, hv⟩
    · rcases scanRow_lmin_attained d i s.lmin s.lmax with r | ⟨a, ha, hnm, hv⟩
      · left; rw [h]; exact r
      · right; exact ⟨i, List.mem_cons_self _ _, a, ha, hnm, by rw [h]; exact hv⟩
    · right; exact ⟨j, List.mem_cons_of_mem _ hj, a, ha, hnm, hv⟩

theorem scanObservations_lmax_ge (d : BehaviorLongitudinalData K) (l : List Nat) (s : Stats K)
    (hne : ∀ i ∈ l, (nonMissingActors d i).length ≠ 0) :
    s.lmax ≤ (scanObservations d l s).1.lmax ∧
      ∀ i ∈ l, ∀ a < d.n, d.lmissing i a = false →
        d.lvalues i a ≤ (scanObservations d l s).1.lmax := by
  induction l generalizing s with
  | nil => simp [scanObservations]
  | cons i l ih =>
    rw [scanObservations_cons_ok d i l s (hne i (List.mem_cons_self _ _))]
    obtain ⟨h1, h2⟩ := ih
      { lmin := (scanRow d i s.lmin s.lmax).lmin
        lmax := (scanRow d i s.lmin s.lmax).lmax
        loverallMean := s.loverallMean +
          (wrapInt (observationSum d i) : K) / ((nonMissingActors d i).length : K) }
      (fun j hj => hne j (List.mem_cons_of_mem _ hj))
    obtain ⟨r1, r2⟩ := scanRow_lmax_ge d i s.lmin s.lmax
    refine ⟨le_trans r1 h1, ?_⟩
    intro j hj a ha hnm
    rcases List.mem_cons.mp hj with rfl | hj
    · exact le_trans (r2 a ha hnm) h1
    · exact h2 j hj a ha hnm

theorem scanObservations_lmax_attained (d : BehaviorLongitudinalData K) (l : List Nat)
    (s : Stats K) (hne : ∀ i ∈ l, (nonMissingActors d i).length ≠ 0) :
    (scanObservations d l s).1.lmax = s.lmax ∨
      ∃ i ∈ l, ∃ a < d.n, d.lmissing i a = false ∧
        d.lvalues i a = (scanObservations d l s).1.lmax := by
  induction l generalizing s with
  | nil => simp [scanObservations]
  | cons i l ih =>
    rw [scanObservations_cons_ok d i l s (hne i (List.mem_cons_self _ _))]
    rcases ih
      { lmin := (scanRow d i s.lmin s.lmax).lmin
        lmax := (scanRow d i s.lmin s.lmax).lmax
        loverallMean := s.loverallMean +
          (wrapInt (observationSum d i) : K) / ((nonMissingActors d i).length : K) }
      (fun j hj => hne j (List.mem_cons_of_mem _ hj)) with h | ⟨j, hj, a, ha, hnm, hv⟩
    · rcases scanRow_lmax_attained d i s.lmin s.lmax with r | ⟨a, ha, hnm, hv⟩
      · left; rw [h]; exact r
      · right; exact ⟨i, List.mem_cons_self _ _, a, ha, hnm, by rw [h]; exact hv⟩
    · right; exact ⟨j, List.mem_cons_of_mem _ hj, a, ha, hnm, hv⟩

/-! ### The result of `calculateProperties` in terms of the outer loop -/

theorem calculateProperties_fst (d : BehaviorLongitudinalData K) :
    d.calculateProperties.1 =
      match (scanObservations d (List.range d.observationCount)
          { lmin := INT_MAX, lmax := INT_MIN, loverallMean := 0 }).2 with
      | some failure => Except.error failure
      | none =>
        if wrapInt
            ((scanObservations d (List.range d.observationCount)
                { lmin := INT_MAX, lmax := INT_MIN, loverallMean := 0 }).1.lmax -
              (scanObservations d (List.range d.observationCount)
                { lmin := INT_MAX, lmax := INT_MIN, loverallMean := 0 }).1.lmin) = 0
        then Except.error (Failure.allEqual d.name)
        else Except.ok () := by
  unfold calculateProperties
  generalize scanObservations d (List.range d.observationCount)
    { lmin := INT_MAX, lmax := INT_MIN, loverallMean := 0 } = p
  rcases p with ⟨s, _ | f⟩
  · simp only
    split_ifs <;> rfl
  · rfl

theorem calculateProperties_lmin (d : BehaviorLongitudinalData K) :
    d.calculateProperties.2.lmin =
      (scanObservations d (List.range d.observationCount)
        { lmin := INT_MAX, lmax := INT_MIN, loverallMean := 0 }).1.lmin := by
  unfold calculateProperties
  generalize scanObservations d (List.range d.observationCount)
    { lmin := INT_MAX, lmax := INT_MIN, loverallMean := 0 } = p
  rcases p with ⟨s, _ | f⟩
  · simp only
    split_ifs <;> rfl
  · rfl

theorem calculateProperties_lmax (d : BehaviorLongitudinalData K) :
    d.calculateProperties.2.lmax =
      (scanObservations d (List.range d.observationCount)
        { lmin := INT_MAX, lmax := INT_MIN, loverallMean := 0 }).1.lmax := by
  unfold calculateProperties
  generalize scanObservations d (List.range d.observationCount)
    { lmin := INT_MAX, lmax := INT_MIN, loverallMean := 0 } = p
  rcases p with ⟨s, _ | f⟩
  · simp only
    split_ifs <;> rfl
  · rfl

theorem calculateProperties_lrange (d : BehaviorLongitudinalData K)
    (h : (scanObservations d (List.range d.observationCount)
        { lmin := INT_MAX, lmax := INT_MIN, loverallMean := 0 }).2 = none) :
    d.calculateProperties.2.lrange =
      wrapInt (d.calculateProperties.2.lmax - d.calculateProperties.2.lmin) := by
  rw [calculateProperties_lmax, calculateProperties_lmin]
  unfold calculateProperties
  revert h
  generalize scanObservations d (List.range d.observationCount)
    { lmin := INT_MAX, lmax := INT_MIN, loverallMean := 0 } = p
  rcases p with ⟨s, _ | f⟩
  · intro _
    simp only
    split_ifs <;> rfl
  · intro h
    exact absurd h (by simp)

theorem calculateProperties_loverallMean (d : BehaviorLongitudinalData K)
    (h : (scanObservations d (List.range d.observationCount)
        { lmin := INT_MAX, lmax := INT_MIN, loverallMean := 0 }).2 = none) :
    d.calculateProperties.2.loverallMean =
      (scanObservations d (List.range d.observationCount)
        { lmin := INT_MAX, lmax := INT_MIN, loverallMean := 0 }).1.loverallMean /
        (d.observationCount : K) := by
  unfold calculateProperties
  revert h
  generalize scanObservations d (List.range d.observationCount)
    { lmin := INT_MAX, lmax := INT_MIN, loverallMean := 0 } = p
  rcases p with ⟨s, _ | f⟩
  · intro _
    simp only
    split_ifs <;> rfl
  · intro h
    exact absurd h (by simp)

theorem calculateProperties_planes (d : BehaviorLongitudinalData K) :
    d.calculateProperties.2.lvalues = d.lvalues ∧
      d.calculateProperties.2.lmissing = d.lmissing ∧
      d.calculateProperties.2.lstructural = d.lstructural ∧
      d.calculateProperties.2.n = d.n ∧
      d.calculateProperties.2.observationCount = d.observationCount := by
  unfold calculateProperties
  generalize scanObservations d (List.range d.observationCount)
    { lmin := INT_MAX, lmax := INT_MIN, loverallMean := 0 } = p
  rcases p with ⟨s, _ | f⟩
  · simp only
    split_ifs <;> exact ⟨rfl, rfl, rfl, rfl, rfl⟩
  · exact ⟨rfl, rfl, rfl, rfl, rfl⟩

/-- The outer loop ends without failure exactly when every observation has a
non-missing cell. -/
theorem scan_none_iff (d : BehaviorLongitudinalData K) (s : Stats K) :
    (scanObservations d (List.range d.observationCount) s).2 = none ↔
      ∀ o < d.observationCount, ∃ a < d.n, d.lmissing o a = false := by
  rw [scanObservations_failure, Option.map_eq_none', List.find?_range_eq_none]
  constructor
  · intro h o ho
    have h1 := h o ho
    by_contra hc
    have h2 : (nonMissingActors d o).length = 0 := by
      rw [count_eq_zero_iff]
      intro a ha
      by_contra hm
      exact hc ⟨a, ha, by simpa using hm⟩
    simp [h2] at h1
  · intro h o ho
    obtain ⟨a, ha, hm⟩ := h o ho
    have h2 : (nonMissingActors d o).length ≠ 0 := by
      rw [Ne, count_eq_zero_iff]
      intro hall
      rw [hall a ha] at hm
      exact Bool.noConfusion hm
    simp [h2]

theorem rows_count_ne_zero (d : BehaviorLongitudinalData K)
    (h : ∀ o < d.observationCount, ∃ a < d.n, d.lmissing o a = false) :
    ∀ i ∈ List.range d.observationCount, (nonMissingActors d i).length ≠ 0 := by
  intro i hi
  obtain ⟨a, ha, hm⟩ := h i (List.mem_range.mp hi)
  rw [Ne, count_eq_zero_iff]
  intro hall
  rw [hall a ha] at hm
  exact Bool.noConfusion hm

/-- The call returns normally exactly when every observation has a non-missing
cell and the wrapped difference of the extremes is not zero. -/
theorem calculateProperties_ok_iff (d : BehaviorLongitudinalData K) :
    d.calculateProperties.1 = Except.ok () ↔
      (∀ o < d.observationCount, ∃ a < d.n, d.lmissing o a = false) ∧
        wrapInt (d.calculateProperties.2.lmax - d.calculateProperties.2.lmin) ≠ 0 := by
  rw [calculateProperties_fst, calculateProperties_lmax, calculateProperties_lmin,
    ← scan_none_iff d { lmin := INT_MAX, lmax := INT_MIN, loverallMean := 0 }]
  generalize scanObservations d (List.range d.observationCount)
    { lmin := INT_MAX, lmax := INT_MIN, loverallMean := 0 } = p
  rcases p with ⟨s, _ | f⟩
  · simp only
    split_ifs with h
    · simp [h]
    · simp [h]
  · simp

/-- With at least one observation, valid rows and `int` cells, the extremes
found are those of the non-missing cells. -/
theorem extremes_of_valid (d : BehaviorLongitudinalData K) (hT : 1 ≤ d.observationCount)
    (hcells : IntCells d)
    (hrows : ∀ o < d.observationCount, ∃ a < d.n, d.lmissing o a = false) :
    (∀ o < d.observationCount, ∀ a < d.n, d.lmissing o a = false →
        d.calculateProperties.2.lmin ≤ d.lvalues o a ∧
          d.lvalues o a ≤ d.calculateProperties.2.lmax) ∧
      (∃ o < d.observationCount, ∃ a < d.n, d.lmissing o a = false ∧
        d.lvalues o a = d.calculateProperties.2.lmin) ∧
      (∃ o < d.observationCount, ∃ a < d.n, d.lmissing o a = false ∧
        d.lvalues o a = d.calculateProperties.2.lmax) := by
  have hne := rows_count_ne_zero d hrows
  rw [calculateProperties_lmin, calculateProperties_lmax]
  obtain ⟨l1, l2⟩ := scanObservations_lmin_le d (List.range d.observationCount)
    { lmin := INT_MAX, lmax := INT_MIN, loverallMean := 0 } hne
  obtain ⟨g1, g2⟩ := scanObservations_lmax_ge d (List.range d.observationCount)
    { lmin := INT_MAX, lmax := INT_MIN, loverallMean := 0 } hne
  have hbound : ∀ o < d.observationCount, ∀ a < d.n, d.lmissing o a = false →
      (scanObservations d (List.range d.observationCount)
          { lmin := INT_MAX, lmax := INT_MIN, loverallMean := 0 }).1.lmin ≤ d.lvalues o a ∧
        d.lvalues o a ≤ (scanObservations d (List.range d.observationCount)
          { lmin := INT_MAX, lmax := INT_MIN, loverallMean := 0 }).1.lmax :=
    fun o ho a ha hm =>
      ⟨l2 o (List.mem_range.mpr ho) a ha hm, g2 o (List.mem_range.mpr ho) a ha hm⟩
  obtain ⟨a0, ha0, hm0⟩ := hrows 0 hT
  obtain ⟨c1, c2⟩ := hcells 0 hT a0 ha0
  obtain ⟨b1, b2⟩ := hbound 0 hT a0 ha0 hm0
  refine ⟨hbound, ?_, ?_⟩
  · rcases scanObservations_lmin_attained d (List.range d.observationCount)
      { lmin := INT_MAX, lmax := INT_MIN, loverallMean := 0 } hne with h | ⟨o, ho, a, ha, hm, hv⟩
    · refine ⟨0, hT, a0, ha0, hm0, ?_⟩
      rw [h] at b1 ⊢
      exact le_antisymm c2 b1
    · exact ⟨o, List.mem_range.mp ho, a, ha, hm, hv⟩
  · rcases scanObservations_lmax_attained d (List.range d.observationCount)
      { lmin := INT_MAX, lmax := INT_MIN, loverallMean := 0 } hne with h | ⟨o, ho, a, ha, hm, hv⟩
    · refine ⟨0, hT, a0, ha0, hm0, ?_⟩
      rw [h] at b2 ⊢
      exact le_antisymm b2 c1
    · exact ⟨o, List.mem_range.mp ho, a, ha, hm, hv⟩

/-- With at least one observation, valid rows and `int` cells, the wrapped
difference of the extremes is zero exactly when all non-missing cells hold the
same value; the extremes are `int` values with `lmin ≤ lmax`. -/
theorem range_zero_iff_all_equal (d : BehaviorLongitudinalData K)
    (hT : 1 ≤ d.observationCount) (hcells : IntCells d)
    (hrows : ∀ o < d.observationCount, ∃ a < d.n, d.lmissing o a = false) :
    (wrapInt (d.calculateProperties.2.lmax - d.calculateProperties.2.lmin) = 0 ↔
        ∀ o₁ < d.observationCount, ∀ a₁ < d.n, ∀ o₂ < d.observationCount, ∀ a₂ < d.n,
          d.lmissing o₁ a₁ = false → d.lmissing o₂ a₂ = false →
            d.lvalues o₁ a₁ = d.lvalues o₂ a₂) ∧
      d.calculateProperties.2.lmin ≤ d.calculateProperties.2.lmax ∧
      INT_MIN ≤ d.calculateProperties.2.lmin ∧ d.calculateProperties.2.lmax ≤ INT_MAX := by
  obtain ⟨hb, ⟨o₁, ho₁, a₁, ha₁, hm₁, hv₁⟩, ⟨o₂, ho₂, a₂, ha₂, hm₂, hv₂⟩⟩ :=
    extremes_of_valid d hT hcells hrows
  have hle : d.calculateProperties.2.lmin ≤ d.calculateProperties.2.lmax := by
    have := hb o₁ ho₁ a₁ ha₁ hm₁
    rw [← hv₁]; exact this.2
  have hlo : INT_MIN ≤ d.calculateProperties.2.lmin := by
    rw [← hv₁]; exact (hcells o₁ ho₁ a₁ ha₁).1
  have hhi : d.calculateProperties.2.lmax ≤ INT_MAX := by
    rw [← hv₂]; exact (hcells o₂ ho₂ a₂ ha₂).2
  refine ⟨?_, hle, hlo, hhi⟩
  have hw : wrapInt (d.calculateProperties.2.lmax - d.calculateProperties.2.lmin) = 0 ↔
      d.calculateProperties.2.lmax = d.calculateProperties.2.lmin := by
    unfold INT_MIN at hlo
    unfold INT_MAX at hhi
    unfold wrapInt
    omega
  rw [hw]
  constructor
  · intro heq p hp b hb1 q hq c hc hmp hmq
    have h1 := hb p hp b hb1 hmp
    have h2 := hb q hq c hc hmq
    rw [heq] at h1 h2
    exact le_antisymm (le_trans h1.2 h2.1) (le_trans h2.2 h1.1)
  · intro hall
    rw [← hv₁, ← hv₂]
    exact hall o₂ ho₂ a₂ ha₂ o₁ ho₁ a₁ ha₁ hm₂ hm₁

/-- When every observation has a non-missing cell, the stored overall mean is
the mean over the observations of `sum / count`, `sum` being the 32-bit sum. -/
theorem overallMean_of_valid (d : BehaviorLongitudinalData K)
    (hrows : ∀ o < d.observationCount, ∃ a < d.n, d.lmissing o a = false) :
    d.calculateProperties.2.loverallMean =
      ((List.range d.observationCount).map (fun i =>
        (wrapInt (observationSum d i) : K) / ((nonMissingActors d i).length : K))).sum /
        (d.observationCount : K) := by
  rw [calculateProperties_loverallMean d ((scan_none_iff d _).mpr hrows),
    scanObservations_mean d _ _ (rows_count_ne_zero d hrows)]
  simp

/-! ### Claims on `calculateProperties` -/

/-- C1: for a data set of `int` cells with at least one observation on which
`calculateProperties` returns normally, `min()` and `max()` afterwards bound
the value of every non-missing cell, and each is the value of some non-missing
cell. -/
theorem C1_min_max_are_extremes (d : BehaviorLongitudinalData K)
    (hT : 1 ≤ d.observationCount) (hcells : IntCells d)
    (hok : d.calculateProperties.1 = Except.ok ()) :
    (∀ o < d.observationCount, ∀ a < d.n, d.calculateProperties.2.missing o a = false →
        d.calculateProperties.2.min ≤ d.calculateProperties.2.value o a ∧
          d.calculateProperties.2.value o a ≤ d.calculateProperties.2.max) ∧
      (∃ o < d.observationCount, ∃ a < d.n, d.calculateProperties.2.missing o a = false ∧
        d.calculateProperties.2.value o a = d.calculateProperties.2.min) ∧
      (∃ o < d.observationCount, ∃ a < d.n, d.calculateProperties.2.missing o a = false ∧
        d.calculateProperties.2.value o a = d.calculateProperties.2.max) := by
  obtain ⟨hv, hm, _, _, _⟩ := calculateProperties_planes d
  have hrows := ((calculateProperties_ok_iff d).mp hok).1
  simp only [missing, value, min, max, hv, hm]
  exact extremes_of_valid d hT hcells hrows

/-- C1, on the values `{[1,3],[2,4]}`: the call returns normally with
`min = 1`, `max = 4`, `range = 3`, and the extremes bound and are attained. -/
theorem C1_min_max_are_extremes_witness :
    dataTwoByTwo.calculateProperties.1 = Except.ok () ∧
      dataTwoByTwo.calculateProperties.2.min = 1 ∧
      dataTwoByTwo.calculateProperties.2.max = 4 ∧
      dataTwoByTwo.calculateProperties.2.range = 3 ∧
      ((∀ o < dataTwoByTwo.observationCount, ∀ a < dataTwoByTwo.n,
          dataTwoByTwo.calculateProperties.2.missing o a = false →
          dataTwoByTwo.calculateProperties.2.min ≤ dataTwoByTwo.calculateProperties.2.value o a ∧
            dataTwoByTwo.calculateProperties.2.value o a ≤
              dataTwoByTwo.calculateProperties.2.max) ∧
        (∃ o < dataTwoByTwo.observationCount, ∃ a < dataTwoByTwo.n,
          dataTwoByTwo.calculateProperties.2.missing o a = false ∧
          dataTwoByTwo.calculateProperties.2.value o a = dataTwoByTwo.calculateProperties.2.min) ∧
        (∃ o < dataTwoByTwo.observationCount, ∃ a < dataTwoByTwo.n,
          dataTwoByTwo.calculateProperties.2.missing o a = false ∧
          dataTwoByTwo.calculateProperties.2.value o a =
            dataTwoByTwo.calculateProperties.2.max)) :=
  ⟨rfl, by decide, by decide, by decide,
    C1_min_max_are_extremes dataTwoByTwo (by decide) (by unfold IntCells; decide) rfl⟩

/-- C2 (amended): for a data set of `int` cells with at least one observation,
each with a non-missing cell, whose non-missing values are not all equal and
whose observations each have a sum of non-missing values within the `int`
range, `calculateProperties` returns normally and `overallMean()` is the mean
over the observations of the observation means. -/
theorem C2_overall_mean_of_means (d : BehaviorLongitudinalData K)
    (hT : 1 ≤ d.observationCount) (hcells : IntCells d)
    (hrows : ∀ o < d.observationCount, ∃ a < d.n, d.missing o a = false)
    (hdiff : ∃ o₁ < d.observationCount, ∃ a₁ < d.n, ∃ o₂ < d.observationCount, ∃ a₂ < d.n,
      d.missing o₁ a₁ = false ∧ d.missing o₂ a₂ = false ∧ d.value o₁ a₁ ≠ d.value o₂ a₂)
    (hsum : ∀ o < d.observationCount,
      INT_MIN ≤ observationSum d o ∧ observationSum d o ≤ INT_MAX) :
    d.calculateProperties.1 = Except.ok () ∧
      d.calculateProperties.2.overallMean = meanOfMeans d := by
  simp only [missing, value] at hrows hdiff
  constructor
  · rw [calculateProperties_ok_iff]
    refine ⟨hrows, fun hw => ?_⟩
    obtain ⟨o₁, ho₁, a₁, ha₁, o₂, ho₂, a₂, ha₂, hm₁, hm₂, hv⟩ := hdiff
    exact hv (((range_zero_iff_all_equal d hT hcells hrows).1.mp hw)
      o₁ ho₁ a₁ ha₁ o₂ ho₂ a₂ ha₂ hm₁ hm₂)
  · rw [overallMean, overallMean_of_valid d hrows, meanOfMeans]
    congr 2
    apply List.map_congr_left
    intro i hi
    obtain ⟨h1, h2⟩ := hsum i (List.mem_range.mp hi)
    rw [wrapInt_of_int h1 h2, observationMean]

/-- C2 (amended), on the values `{[1,3],[2,4]}`: `overallMean = 2.5`; and on the
same values with the cell of actor 1 at observation 0 missing: the mean of
means `(1/1 + (2+4)/2)/2 = 2`, not the flat mean `7/3`. -/
theorem C2_overall_mean_of_means_witness :
    (dataTwoByTwo.calculateProperties.1 = Except.ok () ∧
      dataTwoByTwo.calculateProperties.2.overallMean = meanOfMeans dataTwoByTwo) ∧
      meanOfMeans dataTwoByTwo = 5 / 2 ∧
      meanOfMeans dataOneMissing = 2 ∧ grandMean dataOneMissing = 7 / 3 ∧
      dataOneMissing.calculateProperties.2.overallMean = meanOfMeans dataOneMissing :=
  ⟨C2_overall_mean_of_means dataTwoByTwo (by decide) (by unfold IntCells; decide) (by decide)
      ⟨0, by decide, 0, by decide, 0, by decide, 1, by decide, by decide⟩
      (by unfold INT_MIN INT_MAX; decide),
    by norm_num [meanOfMeans, observationMean, observationSum, nonMissingActors, dataTwoByTwo,
      dataOfRows, List.range, List.range.loop],
    by norm_num [meanOfMeans, observationMean, observationSum, nonMissingActors, dataOneMissing,
      dataOfRows, List.range, List.range.loop],
    by norm_num [grandMean, observationSum, nonMissingActors, dataOneMissing,
      dataOfRows, List.range, List.range.loop],
    (C2_overall_mean_of_means dataOneMissing (by decide) (by unfold IntCells; decide)
      (by decide)
      ⟨0, by decide, 0, by decide, 1, by decide, 1, by decide, by decide⟩
      (by unfold INT_MIN INT_MAX; decide)).2⟩

/-- C2 refuted as stated: one observation with the values 1 and `INT_MAX`, none
missing, not all equal.  The call returns normally, the 32-bit `sum` is
`INT_MIN`, so `overallMean()` is `-1073741824`, while the mean of the
observation means is `1073741824`. -/
theorem C2_counterexample :
    1 ≤ dataLargeSum.observationCount ∧ IntCells dataLargeSum ∧
      (∀ o < dataLargeSum.observationCount, ∃ a < dataLargeSum.n,
        dataLargeSum.missing o a = false) ∧
      dataLargeSum.missing 0 0 = false ∧ dataLargeSum.missing 0 1 = false ∧
      dataLargeSum.value 0 0 ≠ dataLargeSum.value 0 1 ∧
      dataLargeSum.calculateProperties.1 = Except.ok () ∧
      dataLargeSum.calculateProperties.2.overallMean = -1073741824 ∧
      meanOfMeans dataLargeSum = 1073741824 ∧
      dataLargeSum.calculateProperties.2.overallMean ≠ meanOfMeans dataLargeSum := by
  have h1 : dataLargeSum.calculateProperties.2.overallMean = -1073741824 := by
    norm_num [calculateProperties, scanObservations, scanRow, scanActors, scanActor,
      overallMean, dataLargeSum, dataOfRows, List.range, List.range.loop, wrapInt,
      INT_MAX, INT_MIN]
  have h2 : meanOfMeans dataLargeSum = 1073741824 := by
    norm_num [meanOfMeans, observationMean, observationSum, nonMissingActors, dataLargeSum,
      dataOfRows, List.range, List.range.loop]
  refine ⟨by decide, by unfold IntCells; decide, by decide, rfl, rfl, by decide, rfl, h1, h2, ?_⟩
  rw [h1, h2]
  norm_num

/-- C3: `calculateProperties` throws the no-valid-data failure exactly when some
observation has no non-missing cell; the failure then names the variable and
the smallest such observation, whatever the values are.  Without actors, and
with at least one observation, it is thrown for observation 0. -/
theorem C3_no_valid_data_iff (d : BehaviorLongitudinalData K) :
    ((∃ name k, d.calculateProperties.1 = Except.error (Failure.noValidData name k)) ↔
        ∃ o < d.observationCount, ∀ a < d.n, d.missing o a = true) ∧
      (∀ name k, d.calculateProperties.1 = Except.error (Failure.noValidData name k) ↔
        name = d.name ∧ k < d.observationCount ∧ (∀ a < d.n, d.missing k a = true) ∧
          ∀ j < k, ∃ a < d.n, d.missing j a = false) ∧
      (d.n = 0 → 1 ≤ d.observationCount →
        d.calculateProperties.1 = Except.error (Failure.noValidData d.name 0)) := by
  have key : ∀ name k, d.calculateProperties.1 = Except.error (Failure.noValidData name k) ↔
      name = d.name ∧ k < d.observationCount ∧ (∀ a < d.n, d.missing k a = true) ∧
        ∀ j < k, ∃ a < d.n, d.missing j a = false := by
    intro name k
    have hfind : (List.range d.observationCount).find?
          (fun i => decide ((nonMissingActors d i).length = 0)) = some k ↔
        k < d.observationCount ∧ (∀ a < d.n, d.lmissing k a = true) ∧
          ∀ j < k, ∃ a < d.n, d.lmissing j a = false := by
      rw [List.find?_range_eq_some]
      simp only [decide_eq_true_eq, List.mem_range, Bool.not_eq_true', decide_eq_false_iff_not,
        count_eq_zero_iff]
      constructor
      · rintro ⟨h1, h2, h3⟩
        refine ⟨h2, h1, fun j hj => ?_⟩
        have := h3 j hj
        push_neg at this
        obtain ⟨a, ha, hm⟩ := this
        exact ⟨a, ha, by simpa using hm⟩
      · rintro ⟨h1, h2, h3⟩
        refine ⟨h2, h1, fun j hj hall => ?_⟩
        obtain ⟨a, ha, hm⟩ := h3 j hj
        rw [hall a ha] at hm
        exact Bool.noConfusion hm
    rw [calculateProperties_fst, scanObservations_failure]
    simp only [missing]
    rw [← hfind]
    cases hf : (List.range d.observationCount).find?
        (fun i => decide ((nonMissingActors d i).length = 0)) with
    | none =>
      simp only [Option.map_none']
      split_ifs <;> simp
    | some j =>
      simp only [Option.map_some', Except.error.injEq, Failure.noValidData.injEq,
        Option.some.injEq]
      constructor
      · rintro ⟨h1, h2⟩
        exact ⟨h1.symm, h2⟩
      · rintro ⟨h1, h2⟩
        exact ⟨h1.symm, h2⟩
  refine ⟨?_, key, ?_⟩
  · constructor
    · rintro ⟨name, k, h⟩
      obtain ⟨_, h2, h3, _⟩ := (key name k).mp h
      exact ⟨k, h2, h3⟩
    · intro h
      classical
      have hex : ∃ o, o < d.observationCount ∧ ∀ a < d.n, d.missing o a = true := by
        obtain ⟨o, ho, h⟩ := h
        exact ⟨o, ho, h⟩
      refine ⟨d.name, Nat.find hex, (key _ _).mpr ⟨rfl, (Nat.find_spec hex).1,
        (Nat.find_spec hex).2, fun j hj => ?_⟩⟩
      have hmin := Nat.find_min hex hj
      by_contra hc
      apply hmin
      refine ⟨lt_trans hj (Nat.find_spec hex).1, fun a ha => ?_⟩
      by_contra hm
      exact hc ⟨a, ha, by simpa using hm⟩
  · intro hn hT
    refine (key d.name 0).mpr ⟨rfl, hT, ?_, ?_⟩
    · intro a ha
      rw [hn] at ha
      exact absurd ha (Nat.not_lt_zero a)
    · intro j hj
      exact absurd hj (Nat.not_lt_zero j)

/-- C3, on a data set whose cells are all 5 and whose observations 1 and 2 are
entirely missing: the failure is the no-valid-data failure for observation 1,
the smallest such observation, although all observed values are equal. -/
theorem C3_no_valid_data_iff_witness :
    dataMissingRows.calculateProperties.1 =
        Except.error (Failure.noValidData dataMissingRows.name 1) ∧
      ((∃ name k, dataMissingRows.calculateProperties.1 =
          Except.error (Failure.noValidData name k)) ↔
        ∃ o < dataMissingRows.observationCount, ∀ a < dataMissingRows.n,
          dataMissingRows.missing o a = true) :=
  ⟨rfl, (C3_no_valid_data_iff dataMissingRows).1⟩

/-- C4: for a data set of `int` cells with at least one observation, each with a
non-missing cell, `calculateProperties` throws the zero-range failure exactly
when all non-missing cells hold the same value, and returns normally
otherwise. -/
theorem C4_zero_range_iff (d : BehaviorLongitudinalData K)
    (hT : 1 ≤ d.observationCount) (hcells : IntCells d)
    (hrows : ∀ o < d.observationCount, ∃ a < d.n, d.missing o a = false) :
    (∀ name, d.calculateProperties.1 = Except.error (Failure.allEqual name) ↔
        name = d.name ∧
          ∀ o₁ < d.observationCount, ∀ a₁ < d.n, ∀ o₂ < d.observationCount, ∀ a₂ < d.n,
            d.missing o₁ a₁ = false → d.missing o₂ a₂ = false →
              d.value o₁ a₁ = d.value o₂ a₂) ∧
      ((¬ ∀ o₁ < d.observationCount, ∀ a₁ < d.n, ∀ o₂ < d.observationCount, ∀ a₂ < d.n,
            d.missing o₁ a₁ = false → d.missing o₂ a₂ = false →
              d.value o₁ a₁ = d.value o₂ a₂) →
        d.calculateProperties.1 = Except.ok ()) := by
  simp only [missing, value] at hrows ⊢
  obtain ⟨hz, _, _, _⟩ := range_zero_iff_all_equal d hT hcells hrows
  have hnone := (scan_none_iff d
    { lmin := INT_MAX, lmax := INT_MIN, loverallMean := 0 }).mpr hrows
  have hfst := calculateProperties_fst d
  rw [hnone] at hfst
  simp only [← calculateProperties_lmax, ← calculateProperties_lmin] at hfst
  rw [← hz]
  by_cases hw : wrapInt (d.calculateProperties.2.lmax - d.calculateProperties.2.lmin) = 0
  · rw [if_pos hw] at hfst
    rw [hfst]
    refine ⟨fun name => ?_, fun h => absurd hw h⟩
    simp only [Except.error.injEq, Failure.allEqual.injEq, hw, and_true]
    exact eq_comm
  · rw [if_neg hw] at hfst
    rw [hfst]
    refine ⟨fun name => ?_, fun _ => rfl⟩
    simp [hw]

/-- C4, on the data set whose cells all equal 5: the zero-range failure. -/
theorem C4_zero_range_iff_witness :
    dataAllFive.calculateProperties.1 = Except.error (Failure.allEqual dataAllFive.name) ∧
      (∀ name, dataAllFive.calculateProperties.1 = Except.error (Failure.allEqual name) ↔
        name = dataAllFive.name ∧
          ∀ o₁ < dataAllFive.observationCount, ∀ a₁ < dataAllFive.n,
            ∀ o₂ < dataAllFive.observationCount, ∀ a₂ < dataAllFive.n,
              dataAllFive.missing o₁ a₁ = false → dataAllFive.missing o₂ a₂ = false →
                dataAllFive.value o₁ a₁ = dataAllFive.value o₂ a₂) :=
  ⟨rfl, (C4_zero_range_iff dataAllFive (by decide) (by unfold IntCells; decide)
    (by decide)).1⟩

/-- C5 (amended): for a data set of `int` cells with at least one observation on
which `calculateProperties` returns normally, `min() ≤ max()`; and when
`max() - min()` is at most `INT_MAX`, `range() = max() - min()` and
`range() > 0`. -/
theorem C5_range_invariants (d : BehaviorLongitudinalData K)
    (hT : 1 ≤ d.observationCount) (hcells : IntCells d)
    (hok : d.calculateProperties.1 = Except.ok ()) :
    d.calculateProperties.2.min ≤ d.calculateProperties.2.max ∧
      (d.calculateProperties.2.max - d.calculateProperties.2.min ≤ INT_MAX →
        d.calculateProperties.2.range =
            d.calculateProperties.2.max - d.calculateProperties.2.min ∧
          0 < d.calculateProperties.2.range) := by
  obtain ⟨hrows, hw⟩ := (calculateProperties_ok_iff d).mp hok
  obtain ⟨_, hle, _, _⟩ := range_zero_iff_all_equal d hT hcells hrows
  have hr := calculateProperties_lrange d ((scan_none_iff d _).mpr hrows)
  simp only [min, max, range]
  refine ⟨hle, fun hfit => ?_⟩
  have hwrap : wrapInt (d.calculateProperties.2.lmax - d.calculateProperties.2.lmin) =
      d.calculateProperties.2.lmax - d.calculateProperties.2.lmin :=
    wrapInt_of_int (by unfold INT_MIN; omega) hfit
  rw [hr, hwrap]
  rw [hwrap] at hw
  exact ⟨rfl, by omega⟩

/-- C5 (amended), on the values `{[1,3],[2,4]}`: `1 ≤ 4`, and as `4 - 1` is at
most `INT_MAX`, `range = 4 - 1 = 3 > 0`. -/
theorem C5_range_invariants_witness :
    dataTwoByTwo.calculateProperties.2.range = 3 ∧
      dataTwoByTwo.calculateProperties.2.max - dataTwoByTwo.calculateProperties.2.min ≤
        INT_MAX ∧
      (dataTwoByTwo.calculateProperties.2.min ≤ dataTwoByTwo.calculateProperties.2.max ∧
        (dataTwoByTwo.calculateProperties.2.max - dataTwoByTwo.calculateProperties.2.min ≤
            INT_MAX →
          dataTwoByTwo.calculateProperties.2.range =
              dataTwoByTwo.calculateProperties.2.max -
                dataTwoByTwo.calculateProperties.2.min ∧
            0 < dataTwoByTwo.calculateProperties.2.range)) :=
  ⟨by decide, by decide,
    C5_range_invariants dataTwoByTwo (by decide) (by unfold IntCells; decide) rfl⟩

/-- C5 refuted as stated, at two data sets of `int` cells on which the call
returns normally.  With one observation holding -1 and `INT_MAX`:
`min = -1`, `max = INT_MAX`, and `range()` is `INT_MIN`, neither
`max - min` nor positive.  With no observation: `min = INT_MAX`,
`max = INT_MIN`, so `min ≤ max` fails. -/
theorem C5_counterexample :
    (IntCells dataLargeRange ∧
      dataLargeRange.calculateProperties.1 = Except.ok () ∧
      dataLargeRange.calculateProperties.2.min = -1 ∧
      dataLargeRange.calculateProperties.2.max = 2147483647 ∧
      dataLargeRange.calculateProperties.2.range = -2147483648 ∧
      dataLargeRange.calculateProperties.2.range ≠
        dataLargeRange.calculateProperties.2.max - dataLargeRange.calculateProperties.2.min ∧
      ¬ 0 < dataLargeRange.calculateProperties.2.range) ∧
    (IntCells dataNoObservation ∧
      dataNoObservation.calculateProperties.1 = Except.ok () ∧
      dataNoObservation.calculateProperties.2.min = 2147483647 ∧
      dataNoObservation.calculateProperties.2.max = -2147483648 ∧
      ¬ dataNoObservation.calculateProperties.2.min ≤
        dataNoObservation.calculateProperties.2.max) :=
  ⟨⟨by unfold IntCells; decide, rfl, by decide, by decide, by decide, by decide, by decide⟩,
    ⟨by unfold IntCells; decide, rfl, by decide, by decide, by decide⟩⟩

end BehaviorLongitudinalData

namespace MaxAlterEffect

variable {K : Type} [LinearOrderedField K]

/-! ### The tie loop of `MaxAlterEffect` -/

theorem improve_false (values : Nat → K) (acc : K) (alter : Nat) :
    improve false values acc alter = Max.max acc (values alter) := by
  unfold improve
  by_cases h : values alter > acc
  · simp [h, max_eq_right (le_of_lt h)]
  · simp [h, max_eq_left (not_lt.mp h)]

theorem improve_true (values : Nat → K) (acc : K) (alter : Nat) :
    improve true values acc alter = Min.min acc (values alter) := by
  unfold improve
  by_cases h : values alter < acc
  · simp [h, min_eq_right (le_of_lt h)]
  · simp [h, min_eq_left (not_lt.mp h)]

/-- The maximum scan: the result bounds the start and every alter's value, and
it is the start or the value of an alter. -/
theorem foldl_improve_false_spec (values : Nat → K) (l : List Nat) (acc : K) :
    acc ≤ l.foldl (improve false values) acc ∧
      (∀ a ∈ l, values a ≤ l.foldl (improve false values) acc) ∧
      (l.foldl (improve false values) acc = acc ∨
        ∃ a ∈ l, values a = l.foldl (improve false values) acc) := by
  induction l generalizing acc with
  | nil => simp
  | cons b l ih =>
    rw [List.foldl_cons, improve_false]
    obtain ⟨h1, h2, h3⟩ := ih (Max.max acc (values b))
    refine ⟨le_trans (le_max_left _ _) h1, ?_, ?_⟩
    · intro a ha
      rcases List.mem_cons.mp ha with rfl | ha
      · exact le_trans (le_max_right _ _) h1
      · exact h2 a ha
    · rcases h3 with h | ⟨a, ha, hv⟩
      · rcases max_choice acc (values b) with hc | hc
        · left; rw [h, hc]
        · right; exact ⟨b, List.mem_cons_self _ _, by rw [h, hc]⟩
      · right; exact ⟨a, List.mem_cons_of_mem _ ha, hv⟩

/-- The minimum scan: the result is below the start and every alter's value,
and it is the start or the value of an alter. -/
theorem foldl_improve_true_spec (values : Nat → K) (l : List Nat) (acc : K) :
    l.foldl (improve true values) acc ≤ acc ∧
      (∀ a ∈ l, l.foldl (improve true values) acc ≤ values a) ∧
      (l.foldl (improve true values) acc = acc ∨
        ∃ a ∈ l, values a = l.foldl (improve true values) acc) := by
  induction l generalizing acc with
  | nil => simp
  | cons b l ih =>
    rw [List.foldl_cons, improve_true]
    obtain ⟨h1, h2, h3⟩ := ih (Min.min acc (values b))
    refine ⟨le_trans h1 (min_le_left _ _), ?_, ?_⟩
    · intro a ha
      rcases List.mem_cons.mp ha with rfl | ha
      · exact le_trans h1 (min_le_right _ _)
      · exact h2 a ha
    · rcases h3 with h | ⟨a, ha, hv⟩
      · rcases min_choice acc (values b) with hc | hc
        · left; rw [h, hc]
        · right; exact ⟨b, List.mem_cons_self _ _, by rw [h, hc]⟩
      · right; exact ⟨a, List.mem_cons_of_mem _ ha, hv⟩

/-- The maximum scan started at `acc` ends at the larger of `acc` and the
maximum `m` of the values of the alters. -/
theorem foldl_improve_false (values : Nat → K) (l : List Nat) (acc m : K)
    (hm : IsExtremeOfAlters false values l m) :
    l.foldl (improve false values) acc = Max.max m acc := by
  obtain ⟨⟨a, ha, hav⟩, hub⟩ := hm
  simp only [Bool.false_eq_true, if_false] at hub
  obtain ⟨h1, h2, h3⟩ := foldl_improve_false_spec values l acc
  apply le_antisymm
  · rcases h3 with h | ⟨b, hb, hv⟩
    · rw [h]; exact le_max_right _ _
    · rw [← hv]; exact le_trans (hub b hb) (le_max_left _ _)
  · exact max_le (by rw [← hav]; exact h2 a ha) h1

/-- The minimum scan started at `acc` ends at the smaller of `acc` and the
minimum `m` of the values of the alters. -/
theorem foldl_improve_true (values : Nat → K) (l : List Nat) (acc m : K)
    (hm : IsExtremeOfAlters true values l m) :
    l.foldl (improve true values) acc = Min.min m acc := by
  obtain ⟨⟨a, ha, hav⟩, hlb⟩ := hm
  simp only [if_true] at hlb
  obtain ⟨h1, h2, h3⟩ := foldl_improve_true_spec values l acc
  apply le_antisymm
  · exact le_min (by rw [← hav]; exact h2 a ha) h1
  · rcases h3 with h | ⟨b, hb, hv⟩
    · rw [h]; exact min_le_right _ _
    · rw [← hv]; exact le_trans (min_le_left _ _) (hlb b hb)

/-- The scan reads the values of the listed alters only. -/
theorem foldl_improve_congr (minim : Bool) (v w : Nat → K) (l : List Nat) (acc : K)
    (h : ∀ a ∈ l, v a = w a) :
    l.foldl (improve minim v) acc = l.foldl (improve minim w) acc := by
  induction l generalizing acc with
  | nil => rfl
  | cons b l ih =>
    rw [List.foldl_cons, List.foldl_cons, ih _ (fun a ha => h a (List.mem_cons_of_mem _ ha))]
    congr 1
    unfold improve
    rw [h b (List.mem_cons_self _ _)]

/-- A loop whose body ignores the accumulator and the element leaves the value
of the body, once the list is not empty. -/
theorem foldl_const (c init : K) (l : List Nat) (h : l ≠ []) :
    l.foldl (fun _ _ => c) init = c := by
  induction l generalizing init with
  | nil => exact absurd rfl h
  | cons b l ih =>
    rw [List.foldl_cons]
    cases l with
    | nil => rfl
    | cons b2 l2 => exact ih c (List.cons_ne_nil _ _)

theorem outDegree_pos_iff (net : Network) (actor : Nat) :
    net.outDegree actor > 0 ↔ net.outTies actor ≠ [] := by
  unfold Network.outDegree
  exact List.length_pos

/-- The nested scan of `egoStatistic` computes what one single scan does. -/
theorem egoStatistic_eq_singleScan (e : MaxAlterEffect K) (i : Nat) (cv : Nat → K) :
    egoStatistic e i cv = egoStatisticSingleScan e i cv := by
  unfold egoStatistic egoStatisticSingleScan
  by_cases h : e.pNetwork.outDegree i > 0
  · rw [if_pos h, if_pos h]
    simp only
    rw [foldl_const _ _ _ ((outDegree_pos_iff _ _).mp h)]
  · rw [if_neg h, if_neg h]

/-! ### Claims on `MaxAlterEffect` -/

/-- C6: the change contribution is 0 for an actor without out-ties, whatever the
difference, and for the difference 0, whatever the actor; the ego statistic is
0 for an actor without out-ties, whatever the current values.  The effect `e`
is arbitrary, so this holds for `minim = false` and `minim = true`. -/
theorem C6_zero_contribution (e : MaxAlterEffect K) (actor : Nat) :
    (∀ d : Int, e.pNetwork.outDegree actor = 0 → e.calculateChangeContribution actor d = 0) ∧
      e.calculateChangeContribution actor 0 = 0 ∧
      (∀ currentValues : Nat → K, e.pNetwork.outDegree actor = 0 →
        e.egoStatistic actor currentValues = 0) := by
  refine ⟨fun d h => ?_, ?_, fun cv h => ?_⟩
  · unfold calculateChangeContribution
    rw [if_neg]
    rw [h]
    exact fun hc => absurd hc.1 (lt_irrefl 0)
  · unfold calculateChangeContribution
    rw [if_neg]
    exact fun hc => hc.2 rfl
  · unfold egoStatistic
    rw [if_neg]
    rw [h]
    exact lt_irrefl 0

/-- C6, on the three-alter effect: actor 1 has no out-ties, so its contribution
for the difference 7 and its ego statistic are 0; actor 0 has out-ties, and its
contribution for the difference 0 is 0 (minimum mode). -/
theorem C6_zero_contribution_witness :
    (effectThreeAlters false).pNetwork.outDegree 1 = 0 ∧
      (effectThreeAlters false).calculateChangeContribution 1 7 = 0 ∧
      (effectThreeAlters true).calculateChangeContribution 0 0 = 0 ∧
      (effectThreeAlters false).egoStatistic 1 (effectThreeAlters false).centeredValue = 0 :=
  ⟨by decide,
    (C6_zero_contribution (effectThreeAlters false) 1).1 7 (by decide),
    (C6_zero_contribution (effectThreeAlters true) 0).2.1,
    (C6_zero_contribution (effectThreeAlters false) 1).2.2 _ (by decide)⟩

/-- C7 (amended): for an actor with at least one out-tie (`m` is the maximum,
or the minimum when `minim`, of the centered values of its alters) and a
difference `d ≠ 0`, the change contribution is `d` times the larger of `m` and
-1000 (the smaller of `m` and 1000 when `minim`); so it is `d * m` whenever
`m ≥ -1000` (`m ≤ 1000` when `minim`). -/
theorem C7_change_contribution_extreme (e : MaxAlterEffect K) (actor : Nat) (d : Int) (m : K)
    (hd : d ≠ 0)
    (hm : IsExtremeOfAlters e.lminim e.centeredValue (e.pNetwork.outTies actor) m) :
    e.calculateChangeContribution actor d =
        (d : K) * (if e.lminim = true then Min.min m 1000 else Max.max m (-1000)) ∧
      ((if e.lminim = true then m ≤ 1000 else -1000 ≤ m) →
        e.calculateChangeContribution actor d = (d : K) * m) := by
  have hne : e.pNetwork.outTies actor ≠ [] := by
    obtain ⟨⟨a, ha, _⟩, _⟩ := hm
    exact List.ne_nil_of_mem ha
  have hdeg : e.pNetwork.outDegree actor > 0 := (outDegree_pos_iff _ _).mpr hne
  have hval : e.calculateChangeContribution actor d =
      (d : K) * (if e.lminim = true then Min.min m 1000 else Max.max m (-1000)) := by
    unfold calculateChangeContribution
    rw [if_pos ⟨hdeg, hd⟩]
    simp only
    cases hmin : e.lminim with
    | false =>
      rw [hmin] at hm
      rw [foldl_improve_false _ _ _ m hm]
      simp [sentinel, mul_comm]
    | true =>
      rw [hmin] at hm
      rw [foldl_improve_true _ _ _ m hm]
      simp [sentinel, mul_comm]
  refine ⟨hval, fun hb => ?_⟩
  rw [hval]
  cases hmin : e.lminim with
  | false =>
    rw [hmin] at hb
    simp only [Bool.false_eq_true, if_false] at hb ⊢
    rw [max_eq_left hb]
  | true =>
    rw [hmin] at hb
    simp only [if_true] at hb ⊢
    rw [min_eq_left hb]

/-- C7 (amended), on alters with the centered values `{2, 5, -1}` and `d = 1`:
the contribution is 5 for a maximum and -1 for a minimum. -/
theorem C7_change_contribution_extreme_witness :
    IsExtremeOfAlters false (effectThreeAlters false).centeredValue
        ((effectThreeAlters false).pNetwork.outTies 0) 5 ∧
      (effectThreeAlters false).calculateChangeContribution 0 1 = ((1 : Int) : ℚ) * 5 ∧
      IsExtremeOfAlters true (effectThreeAlters true).centeredValue
        ((effectThreeAlters true).pNetwork.outTies 0) (-1) ∧
      (effectThreeAlters true).calculateChangeContribution 0 1 = ((1 : Int) : ℚ) * (-1) :=
  have hmax : IsExtremeOfAlters (effectThreeAlters false).lminim
      (effectThreeAlters false).centeredValue
      ((effectThreeAlters false).pNetwork.outTies 0) 5 := by
    refine ⟨⟨2, by simp [effectThreeAlters], by simp [effectThreeAlters]⟩, ?_⟩
    intro a ha
    simp only [effectThreeAlters, if_true, List.mem_cons, List.mem_singleton,
      List.not_mem_nil, or_false] at ha
    rcases ha with rfl | rfl | rfl <;> norm_num [effectThreeAlters]
  have hmin : IsExtremeOfAlters (effectThreeAlters true).lminim
      (effectThreeAlters true).centeredValue
      ((effectThreeAlters true).pNetwork.outTies 0) (-1) := by
    refine ⟨⟨3, by simp [effectThreeAlters], by simp [effectThreeAlters]⟩, ?_⟩
    intro a ha
    simp only [effectThreeAlters, if_true, List.mem_cons, List.mem_singleton,
      List.not_mem_nil, or_false] at ha
    rcases ha with rfl | rfl | rfl <;> norm_num [effectThreeAlters]
  ⟨hmax,
    (C7_change_contribution_extreme (effectThreeAlters false) 0 1 5 (by decide) hmax).2
      (by norm_num [effectThreeAlters]),
    hmin,
    (C7_change_contribution_extreme (effectThreeAlters true) 0 1 (-1) (by decide) hmin).2
      (by norm_num [effectThreeAlters])⟩

/-- C7 refuted as stated: actor 0 has one out-tie, to an alter with the centered
value -2000 (2000 for a minimum), which is therefore the maximum (minimum) over
its alters; for `d = 1` the contribution is -1000 (1000), not `1 * -2000`
(`1 * 2000`). -/
theorem C7_counterexample :
    (0 < (effectFarAlter false).pNetwork.outDegree 0 ∧
      IsExtremeOfAlters false (effectFarAlter false).centeredValue
        ((effectFarAlter false).pNetwork.outTies 0) (-2000) ∧
      (effectFarAlter false).calculateChangeContribution 0 1 = -1000 ∧
      (effectFarAlter false).calculateChangeContribution 0 1 ≠ ((1 : Int) : ℚ) * (-2000)) ∧
    (0 < (effectFarAlter true).pNetwork.outDegree 0 ∧
      IsExtremeOfAlters true (effectFarAlter true).centeredValue
        ((effectFarAlter true).pNetwork.outTies 0) 2000 ∧
      (effectFarAlter true).calculateChangeContribution 0 1 = 1000 ∧
      (effectFarAlter true).calculateChangeContribution 0 1 ≠ ((1 : Int) : ℚ) * 2000) := by
  have h1 : (effectFarAlter false).calculateChangeContribution 0 1 = -1000 := by
    norm_num [calculateChangeContribution, effectFarAlter, Network.outDegree, sentinel, improve]
  have h2 : (effectFarAlter true).calculateChangeContribution 0 1 = 1000 := by
    norm_num [calculateChangeContribution, effectFarAlter, Network.outDegree, sentinel, improve]
  refine ⟨⟨by decide, ?_, h1, by rw [h1]; norm_num⟩, ⟨by decide, ?_, h2, by rw [h2]; norm_num⟩⟩
  · simp [IsExtremeOfAlters, effectFarAlter]
  · simp [IsExtremeOfAlters, effectFarAlter]


/-- C9: for an actor `i` that is not among its own alters and an integer `d`,
the change contribution is the difference of the ego statistics after and
before adding `d` to the centered value of `i`. -/
theorem C9_marginal_change (e : MaxAlterEffect K) (i : Nat) (d : Int)
    (hself : i ∉ e.pNetwork.outTies i) :
    e.calculateChangeContribution i d =
      e.egoStatistic i (Function.update e.centeredValue i (e.centeredValue i + (d : K))) -
        e.egoStatistic i e.centeredValue := by
  rw [egoStatistic_eq_singleScan, egoStatistic_eq_singleScan]
  unfold egoStatisticSingleScan calculateChangeContribution
  by_cases h : e.pNetwork.outDegree i > 0
  · have hagg : (e.pNetwork.outTies i).foldl
          (improve e.lminim (Function.update e.centeredValue i (e.centeredValue i + (d : K))))
          (sentinel e.lminim) =
        (e.pNetwork.outTies i).foldl (improve e.lminim e.centeredValue) (sentinel e.lminim) := by
      apply foldl_improve_congr
      intro a ha
      have hai : a ≠ i := fun hc => hself (hc ▸ ha)
      exact Function.update_noteq hai _ _
    rw [if_pos h, if_pos h, hagg, Function.update_same]
    by_cases hd : d = 0
    · rw [if_neg (fun hc => hc.2 hd), hd]
      simp
    · rw [if_pos ⟨h, hd⟩]
      ring
  · rw [if_neg h, if_neg h, if_neg (fun hc => h hc.1)]
    ring

/-- C9, on the three-alter effect (actor 0 is not its own alter), `d = 2`: the
contribution `2 * 5 = 10` is the ego statistic `5 * 5` minus `5 * 3`. -/
theorem C9_marginal_change_witness :
    (effectThreeAlters false).calculateChangeContribution 0 2 = 10 ∧
      (effectThreeAlters false).calculateChangeContribution 0 2 =
        (effectThreeAlters false).egoStatistic 0
            (Function.update (effectThreeAlters false).centeredValue 0
              ((effectThreeAlters false).centeredValue 0 + ((2 : Int) : ℚ))) -
          (effectThreeAlters false).egoStatistic 0 (effectThreeAlters false).centeredValue :=
  ⟨by norm_num [calculateChangeContribution, effectThreeAlters, Network.outDegree, sentinel,
      improve],
    C9_marginal_change (effectThreeAlters false) 0 2 (by decide)⟩

end MaxAlterEffect

namespace BehaviorLongitudinalData

variable {K : Type} [LinearOrderedField K]

/-! ### The similarity constants -/

theorem calculateProperties_similarityMeans (d : BehaviorLongitudinalData K) :
    d.calculateProperties.2.lsimilarityMeans = d.lsimilarityMeans ∧
      d.calculateProperties.2.lsimilarityMean = d.lsimilarityMean := by
  unfold calculateProperties
  generalize scanObservations d (List.range d.observationCount)
    { lmin := INT_MAX, lmax := INT_MIN, loverallMean := 0 } = p
  rcases p with ⟨s, _ | f⟩
  · simp only
    split_ifs <;> exact ⟨rfl, rfl⟩
  · exact ⟨rfl, rfl⟩

/-- The map entry of a name after one call: the value the call stores for the
name, else the entry before the call. -/
theorem applyCall_lsimilarityMeans (d : BehaviorLongitudinalData K) (c : Call K)
    (name : String) :
    (applyCall d c).lsimilarityMeans name =
      match storedFor name c with
      | some v => some v
      | none => d.lsimilarityMeans name := by
  cases c with
  | value o a v => rfl
  | missing o a m => rfl
  | structural o a s => rfl
  | similarityMean v => rfl
  | similarityMeans v networkName =>
    simp only [applyCall, similarityMeans, storedFor]
    by_cases h : networkName = name
    · simp [h]
    · have h2 : ¬ name = networkName := fun hc => h hc.symm
      simp [h, h2]
  | calculateProperties =>
    simp only [applyCall, storedFor]
    rw [(calculateProperties_similarityMeans d).1]

/-- The map entry of a name after a sequence of calls: the value most recently
stored for the name, else the entry before the calls. -/
theorem applyCalls_lsimilarityMeans (d : BehaviorLongitudinalData K) (calls : List (Call K))
    (name : String) :
    (applyCalls d calls).lsimilarityMeans name =
      match lastStored calls name with
      | some v => some v
      | none => d.lsimilarityMeans name := by
  induction calls using List.reverseRecOn with
  | nil => rfl
  | append_singleton l c ih =>
    have hrun : applyCalls d (l ++ [c]) = applyCall (applyCalls d l) c := by
      simp [applyCalls, List.foldl_append]
    have hlast : lastStored (l ++ [c]) name =
        match storedFor name c with
        | some v => some v
        | none => lastStored l name := by
      cases hs : storedFor name c <;>
        simp [lastStored, List.reverse_append, List.findSome?_cons, hs]
    rw [hrun, applyCall_lsimilarityMeans, hlast]
    cases storedFor name c with
    | some v => rfl
    | none => exact ih

/-- C10: on an object constructed and then subjected to any sequence of calls,
`similarityNetwork(a, b, name) = 1 - |a - b| / range - c`, where `c` is the
value most recently stored for `name` by a `similarityMeans` call, and 0 when
there is none; a store for `name` placed last decides `c`, a store for another
name placed last does not change it, and with no entry for the name the
result is `1 - |a - b| / range`. -/
theorem C10_similarity_network_centering (id : Int) (objectName : String)
    (actorCount observationCount : Nat) (u : Indeterminate K) (calls : List (Call K))
    (a b : K) (name : String) :
    (applyCalls (construct id objectName actorCount observationCount u) calls).similarityNetwork
        a b name =
      1 - |a - b| /
          (((applyCalls (construct id objectName actorCount observationCount u) calls).range :
            Int) : K) -
        (match lastStored calls name with
          | some c => c
          | none => 0) ∧
    (∀ c : K, lastStored (calls ++ [Call.similarityMeans c name]) name = some c) ∧
    (∀ (c : K) (other : String), other ≠ name →
      lastStored (calls ++ [Call.similarityMeans c other]) name = lastStored calls name) ∧
    ((∀ c : K, Call.similarityMeans c name ∉ calls) → lastStored calls name = none) ∧
    (∀ d : BehaviorLongitudinalData K, d.lsimilarityMeans name = none →
      d.similarityNetwork a b name = 1 - |a - b| / ((d.range : Int) : K)) := by
  refine ⟨?_, ?_, ?_, ?_, ?_⟩
  · unfold similarityNetwork
    simp only [range]
    rw [applyCalls_lsimilarityMeans]
    cases lastStored calls name with
    | some v => rfl
    | none => rfl
  · intro c
    simp [lastStored, storedFor]
  · intro c other hne
    simp [lastStored, storedFor, hne]
  · intro h
    simp only [lastStored, List.findSome?_eq_none_iff, List.mem_reverse]
    intro x hx
    cases x with
    | similarityMeans v networkName =>
      simp only [storedFor]
      by_cases hn : networkName = name
      · subst hn
        exact absurd hx (h v)
      · simp [hn]
    | value o a v => rfl
    | missing o a m => rfl
    | structural o a s => rfl
    | similarityMean v => rfl
    | calculateProperties => rfl
  · intro d hd
    unfold similarityNetwork
    simp [hd, range]

/-- C10, on an object constructed for two observations of two actors and loaded
by `callsExample` (range 3): for "friendship" the constant is the second
value stored, `3/4`, so the similarity of 1 and 3 is `1 - 2/3 - 3/4`; for
"netX", never stored, it is `1 - 2/3`. -/
theorem C10_similarity_network_centering_witness :
    (applyCalls (construct 0 "behavior" 2 2 indeterminateExample) callsExample).range = 3 ∧
      (applyCalls (construct 0 "behavior" 2 2 indeterminateExample) callsExample).similarityNetwork
          1 3 "friendship" = 1 - 2 / 3 - 3 / 4 ∧
      (applyCalls (construct 0 "behavior" 2 2 indeterminateExample) callsExample).similarityNetwork
          1 3 "netX" = 1 - 2 / 3 := by
  have hr : (applyCalls (construct 0 "behavior" 2 2 indeterminateExample) callsExample).range
      = 3 := by decide
  have h1 := (C10_similarity_network_centering 0 "behavior" 2 2 indeterminateExample
    callsExample 1 3 "friendship").1
  have h2 := (C10_similarity_network_centering 0 "behavior" 2 2 indeterminateExample
    callsExample 1 3 "netX").1
  have l1 : lastStored callsExample "friendship" = some (3 / 4) := by
    simp [lastStored, callsExample, storedFor]
  have l2 : lastStored callsExample "netX" = none := by
    simp [lastStored, callsExample, storedFor]
  rw [hr, l1] at h1
  rw [hr, l2] at h2
  refine ⟨hr, ?_, ?_⟩
  · rw [h1]; norm_num
  · rw [h2]; norm_num

/-! ### Claims on the similarity functions and on the planes -/

/-- C11: `similarity` and `similarityNetwork` are symmetric in their two value
arguments, for every data object and every network name. -/
theorem C11_similarity_symmetric (d : BehaviorLongitudinalData K) (a b : K) (name : String) :
    d.similarity a b = d.similarity b a ∧
      d.similarityNetwork a b name = d.similarityNetwork b a name := by
  unfold similarity similarityNetwork
  rw [abs_sub_comm a b]
  exact ⟨rfl, rfl⟩

/-- C12 (amended): on an object on which `calculateProperties` has returned
normally (so that `range()` is not 0) and on which `similarityMean(m)` has then
been called, `similarityMean()` is `m` and `similarity(a, a) = 1 - m` for every
`a`; when `range() > 0`, no `similarity(a, b)` exceeds this value. -/
theorem C12_similarity_diagonal (d : BehaviorLongitudinalData K)
    (hok : d.calculateProperties.1 = Except.ok ()) (m a : K) :
    (d.calculateProperties.2.setSimilarityMean m).range ≠ 0 ∧
      (d.calculateProperties.2.setSimilarityMean m).similarityMean = m ∧
      (d.calculateProperties.2.setSimilarityMean m).similarity a a = 1 - m ∧
      (0 < (d.calculateProperties.2.setSimilarityMean m).range →
        ∀ b : K, (d.calculateProperties.2.setSimilarityMean m).similarity a b ≤
          (d.calculateProperties.2.setSimilarityMean m).similarity a a) := by
  obtain ⟨hrows, hw⟩ := (calculateProperties_ok_iff d).mp hok
  have hr := calculateProperties_lrange d ((scan_none_iff d _).mpr hrows)
  refine ⟨?_, rfl, ?_, fun hpos b => ?_⟩
  · simp only [range, setSimilarityMean]
    rw [hr]
    exact hw
  · simp [similarity, setSimilarityMean]
  · simp only [similarity, setSimilarityMean, range] at hpos ⊢
    have hcast : (0 : K) < ((d.calculateProperties.2.lrange : Int) : K) := by
      exact_mod_cast hpos
    have hnn : 0 ≤ |a - b| / ((d.calculateProperties.2.lrange : Int) : K) :=
      div_nonneg (abs_nonneg _) (le_of_lt hcast)
    simp only [sub_self, abs_zero, zero_div]
    linarith

/-- C12 (amended), on the values `{[1,3],[2,4]}` with `similarityMean(1/4)`:
the range is 3 and `similarity(2, 2) = 1 - 1/4`, the largest value of
`similarity(2, b)`. -/
theorem C12_similarity_diagonal_witness :
    (dataTwoByTwo.calculateProperties.2.setSimilarityMean (1 / 4)).range = 3 ∧
      ((dataTwoByTwo.calculateProperties.2.setSimilarityMean (1 / 4)).range ≠ 0 ∧
        (dataTwoByTwo.calculateProperties.2.setSimilarityMean (1 / 4)).similarityMean = 1 / 4 ∧
        (dataTwoByTwo.calculateProperties.2.setSimilarityMean (1 / 4)).similarity 2 2 =
          1 - 1 / 4 ∧
        (0 < (dataTwoByTwo.calculateProperties.2.setSimilarityMean (1 / 4)).range →
          ∀ b : ℚ, (dataTwoByTwo.calculateProperties.2.setSimilarityMean (1 / 4)).similarity 2 b ≤
            (dataTwoByTwo.calculateProperties.2.setSimilarityMean (1 / 4)).similarity 2 2)) :=
  ⟨by decide, C12_similarity_diagonal dataTwoByTwo rfl (1 / 4) 2⟩

/-- C12 refuted as stated (the diagonal value is not always the maximum): on
one observation holding -1 and `INT_MAX` the call returns normally with
`range() = INT_MIN`; after `similarityMean(0)`, `similarity(0, 0) = 1` while
`similarity(0, 1) = 1 + 1/2147483648` is larger. -/
theorem C12_counterexample :
    dataLargeRange.calculateProperties.1 = Except.ok () ∧
      (dataLargeRange.calculateProperties.2.setSimilarityMean 0).range = -2147483648 ∧
      (dataLargeRange.calculateProperties.2.setSimilarityMean 0).similarity 0 0 = 1 ∧
      (dataLargeRange.calculateProperties.2.setSimilarityMean 0).similarity 0 1 =
        1 + 1 / 2147483648 ∧
      ¬ (dataLargeRange.calculateProperties.2.setSimilarityMean 0).similarity 0 1 ≤
        (dataLargeRange.calculateProperties.2.setSimilarityMean 0).similarity 0 0 := by
  have hr : (dataLargeRange.calculateProperties.2.setSimilarityMean 0).lrange = -2147483648 := by
    decide
  have h0 : (dataLargeRange.calculateProperties.2.setSimilarityMean 0).similarity 0 0 = 1 := by
    simp [similarity, setSimilarityMean]
  have h1 : (dataLargeRange.calculateProperties.2.setSimilarityMean 0).similarity 0 1 =
      1 + 1 / 2147483648 := by
    unfold similarity
    rw [hr]
    norm_num [setSimilarityMean]
  refine ⟨rfl, hr, h0, h1, ?_⟩
  rw [h0, h1]
  norm_num

/-- C13: a write to one plane at a cell changes that plane at that cell only:
after `value(o, a, v)` the cell reads `v`, every other value cell and the
whole missing and structural planes are as before; likewise for
`missing(o, a, m)` and `structural(o, a, s)`.  This holds for all indices, in
particular for the valid ones. -/
theorem C13_plane_writes_frame (d : BehaviorLongitudinalData K) (o a : Nat) (v : Int)
    (m s : Bool) :
    ((d.setValue o a v).value o a = v ∧
      (∀ o₂ a₂, (o₂, a₂) ≠ (o, a) → (d.setValue o a v).value o₂ a₂ = d.value o₂ a₂) ∧
      (∀ o₂ a₂, (d.setValue o a v).missing o₂ a₂ = d.missing o₂ a₂ ∧
        (d.setValue o a v).structural o₂ a₂ = d.structural o₂ a₂)) ∧
    ((d.setMissing o a m).missing o a = m ∧
      (∀ o₂ a₂, (o₂, a₂) ≠ (o, a) → (d.setMissing o a m).missing o₂ a₂ = d.missing o₂ a₂) ∧
      (∀ o₂ a₂, (d.setMissing o a m).value o₂ a₂ = d.value o₂ a₂ ∧
        (d.setMissing o a m).structural o₂ a₂ = d.structural o₂ a₂)) ∧
    ((d.setStructural o a s).structural o a = s ∧
      (∀ o₂ a₂, (o₂, a₂) ≠ (o, a) →
        (d.setStructural o a s).structural o₂ a₂ = d.structural o₂ a₂) ∧
      (∀ o₂ a₂, (d.setStructural o a s).value o₂ a₂ = d.value o₂ a₂ ∧
        (d.setStructural o a s).missing o₂ a₂ = d.missing o₂ a₂)) := by
  have hne : ∀ o₂ a₂ : Nat, (o₂, a₂) ≠ (o, a) → ¬ (o₂ = o ∧ a₂ = a) := by
    intro o₂ a₂ h hc
    exact h (by rw [hc.1, hc.2])
  refine ⟨⟨?_, ?_, fun _ _ => ⟨rfl, rfl⟩⟩, ⟨?_, ?_, fun _ _ => ⟨rfl, rfl⟩⟩,
    ⟨?_, ?_, fun _ _ => ⟨rfl, rfl⟩⟩⟩
  · simp [setValue, value]
  · intro o₂ a₂ h
    simp only [setValue, value]
    rw [if_neg (hne o₂ a₂ h)]
  · simp [setMissing, missing]
  · intro o₂ a₂ h
    simp only [setMissing, missing]
    rw [if_neg (hne o₂ a₂ h)]
  · simp [setStructural, structural]
  · intro o₂ a₂ h
    simp only [setStructural, structural]
    rw [if_neg (hne o₂ a₂ h)]

/-- C13, on the values `{[1,3],[2,4]}`: after `value(1, 0, 9)` the cell (1,0)
reads 9, the cell (0,1) still reads 3, and the flags of (1,0) are unchanged. -/
theorem C13_plane_writes_frame_witness :
    (dataTwoByTwo.setValue 1 0 9).value 1 0 = 9 ∧
      (dataTwoByTwo.setValue 1 0 9).value 0 1 = 3 ∧
      (dataTwoByTwo.setValue 1 0 9).missing 1 0 = false ∧
      (dataTwoByTwo.setValue 1 0 9).structural 1 0 = false :=
  ⟨(C13_plane_writes_frame dataTwoByTwo 1 0 9 true true).1.1,
    ((C13_plane_writes_frame dataTwoByTwo 1 0 9 true true).1.2.1 0 1 (by decide)).trans
      (by decide),
    ((C13_plane_writes_frame dataTwoByTwo 1 0 9 true true).1.2.2 1 0).1.trans (by decide),
    ((C13_plane_writes_frame dataTwoByTwo 1 0 9 true true).1.2.2 1 0).2.trans (by decide)⟩

/-- C14: a freshly constructed object has the given actor and observation
counts and, at every cell, the value 0 and both flags false. -/
theorem C14_constructor_initial (id : Int) (name : String) (actorCount observationCount : Nat)
    (u : Indeterminate K) (o a : Nat) :
    (construct id name actorCount observationCount u).n = actorCount ∧
      (construct id name actorCount observationCount u).observationCount = observationCount ∧
      (construct id name actorCount observationCount u).value o a = 0 ∧
      (construct id name actorCount observationCount u).missing o a = false ∧
      (construct id name actorCount observationCount u).structural o a = false :=
  ⟨rfl, rfl, rfl, rfl, rfl⟩

/-! ### `calculateProperties` reads the missing plane and the non-missing values -/

theorem scanActors_congr (d₁ d₂ : BehaviorLongitudinalData K) (i : Nat) (l : List Nat)
    (r : RowScan)
    (hm : ∀ a ∈ l, d₁.lmissing i a = d₂.lmissing i a)
    (hv : ∀ a ∈ l, d₁.lmissing i a = false → d₁.lvalues i a = d₂.lvalues i a) :
    scanActors d₁ i l r = scanActors d₂ i l r := by
  induction l generalizing r with
  | nil => rfl
  | cons a l ih =>
    rw [scanActors_cons, scanActors_cons]
    have hstep : scanActor d₁ i r a = scanActor d₂ i r a := by
      unfold scanActor
      rw [← hm a (List.mem_cons_self _ _)]
      by_cases h : d₁.lmissing i a = false
      · rw [if_pos h, if_pos h, hv a (List.mem_cons_self _ _) h]
      · rw [if_neg h, if_neg h]
    rw [hstep]
    exact ih _ (fun b hb => hm b (List.mem_cons_of_mem _ hb))
      (fun b hb => hv b (List.mem_cons_of_mem _ hb))

theorem scanRow_congr (d₁ d₂ : BehaviorLongitudinalData K) (i : Nat) (lo hi : Int)
    (hn : d₁.n = d₂.n)
    (hm : ∀ a < d₁.n, d₁.lmissing i a = d₂.lmissing i a)
    (hv : ∀ a < d₁.n, d₁.lmissing i a = false → d₁.lvalues i a = d₂.lvalues i a) :
    scanRow d₁ i lo hi = scanRow d₂ i lo hi := by
  unfold scanRow
  rw [← hn]
  exact scanActors_congr d₁ d₂ i _ _ (fun a ha => hm a (List.mem_range.mp ha))
    (fun a ha => hv a (List.mem_range.mp ha))

/-- The members left by the outer loop, and whether and where it fails, are the
same for two objects that agree on the missing plane and on the non-missing
values of the observations scanned. -/
theorem scanObservations_congr (d₁ d₂ : BehaviorLongitudinalData K) (l : List Nat)
    (s : Stats K) (hn : d₁.n = d₂.n)
    (hm : ∀ i ∈ l, ∀ a < d₁.n, d₁.lmissing i a = d₂.lmissing i a)
    (hv : ∀ i ∈ l, ∀ a < d₁.n, d₁.lmissing i a = false → d₁.lvalues i a = d₂.lvalues i a) :
    (scanObservations d₁ l s).1 = (scanObservations d₂ l s).1 ∧
      ((scanObservations d₁ l s).2 = none ∧ (scanObservations d₂ l s).2 = none ∨
        ∃ k, (scanObservations d₁ l s).2 = some (Failure.noValidData d₁.name k) ∧
          (scanObservations d₂ l s).2 = some (Failure.noValidData d₂.name k)) := by
  induction l generalizing s with
  | nil => exact ⟨rfl, Or.inl ⟨rfl, rfl⟩⟩
  | cons i l ih =>
    have hrow : ∀ lo hi, scanRow d₁ i lo hi = scanRow d₂ i lo hi := fun lo hi =>
      scanRow_congr d₁ d₂ i lo hi hn (hm i (List.mem_cons_self _ _))
        (hv i (List.mem_cons_self _ _))
    simp only [scanObservations, hrow]
    by_cases hc : (scanRow d₂ i s.lmin s.lmax).nonMissingValueCount = 0
    · rw [if_pos hc, if_pos hc]
      exact ⟨rfl, Or.inr ⟨i, rfl, rfl⟩⟩
    · rw [if_neg hc, if_neg hc]
      exact ih _ (fun j hj => hm j (List.mem_cons_of_mem _ hj))
        (fun j hj => hv j (List.mem_cons_of_mem _ hj))

/-- The whole result of `calculateProperties` in terms of the outer loop. -/
theorem calculateProperties_cases (d : BehaviorLongitudinalData K) :
    ((scanObservations d (List.range d.observationCount)
          { lmin := INT_MAX, lmax := INT_MIN, loverallMean := 0 }).2 = none ∧
        d.calculateProperties.2.loverallMean =
          (scanObservations d (List.range d.observationCount)
            { lmin := INT_MAX, lmax := INT_MIN, loverallMean := 0 }).1.loverallMean /
            (d.observationCount : K) ∧
        d.calculateProperties.2.lrange =
          wrapInt (d.calculateProperties.2.lmax - d.calculateProperties.2.lmin)) ∨
      (∃ f, (scanObservations d (List.range d.observationCount)
          { lmin := INT_MAX, lmax := INT_MIN, loverallMean := 0 }).2 = some f ∧
        d.calculateProperties.1 = Except.error f ∧
        d.calculateProperties.2.loverallMean =
          (scanObservations d (List.range d.observationCount)
            { lmin := INT_MAX, lmax := INT_MIN, loverallMean := 0 }).1.loverallMean ∧
        d.calculateProperties.2.lrange = d.lrange) := by
  rw [calculateProperties_lmax, calculateProperties_lmin]
  unfold calculateProperties
  generalize scanObservations d (List.range d.observationCount)
    { lmin := INT_MAX, lmax := INT_MIN, loverallMean := 0 } = p
  rcases p with ⟨s, _ | f⟩
  · left
    refine ⟨rfl, ?_, ?_⟩
    · simp only
      split_ifs <;> rfl
    · simp only
      split_ifs <;> rfl
  · right
    exact ⟨f, rfl, rfl, rfl, rfl⟩

theorem calculateProperties_name (d : BehaviorLongitudinalData K) :
    d.calculateProperties.2.name = d.name := by
  unfold calculateProperties
  generalize scanObservations d (List.range d.observationCount)
    { lmin := INT_MAX, lmax := INT_MIN, loverallMean := 0 } = p
  rcases p with ⟨s, _ | f⟩
  · simp only
    split_ifs <;> rfl
  · rfl

/-- Two objects with the same dimensions that agree on the missing plane and on
the non-missing values get the same outcome, the same `lmin`, `lmax` and
`loverallMean`, and the same `lrange` unless the call fails for want of valid
data (it then leaves `lrange` as it was). -/
theorem calculateProperties_congr (d₁ d₂ : BehaviorLongitudinalData K)
    (hT : d₁.observationCount = d₂.observationCount) (hn : d₁.n = d₂.n)
    (hm : ∀ o < d₁.observationCount, ∀ a < d₁.n, d₁.lmissing o a = d₂.lmissing o a)
    (hv : ∀ o < d₁.observationCount, ∀ a < d₁.n, d₁.lmissing o a = false →
      d₁.lvalues o a = d₂.lvalues o a) :
    outcome d₁.calculateProperties.1 = outcome d₂.calculateProperties.1 ∧
      (d₁.name = d₂.name → d₁.calculateProperties.1 = d₂.calculateProperties.1) ∧
      d₁.calculateProperties.2.lmin = d₂.calculateProperties.2.lmin ∧
      d₁.calculateProperties.2.lmax = d₂.calculateProperties.2.lmax ∧
      d₁.calculateProperties.2.loverallMean = d₂.calculateProperties.2.loverallMean ∧
      ((∀ k, outcome d₁.calculateProperties.1 ≠ Outcome.noValidData k) →
        d₁.calculateProperties.2.lrange = d₂.calculateProperties.2.lrange) ∧
      ((∃ k, outcome d₁.calculateProperties.1 = Outcome.noValidData k) →
        d₁.calculateProperties.2.lrange = d₁.lrange ∧
          d₂.calculateProperties.2.lrange = d₂.lrange) := by
  obtain ⟨hs, hf⟩ := scanObservations_congr d₁ d₂ (List.range d₁.observationCount)
    { lmin := INT_MAX, lmax := INT_MIN, loverallMean := 0 } hn
    (fun i hi => hm i (List.mem_range.mp hi)) (fun i hi => hv i (List.mem_range.mp hi))
  have hmin : d₁.calculateProperties.2.lmin = d₂.calculateProperties.2.lmin := by
    rw [calculateProperties_lmin, calculateProperties_lmin, ← hT, hs]
  have hmax : d₁.calculateProperties.2.lmax = d₂.calculateProperties.2.lmax := by
    rw [calculateProperties_lmax, calculateProperties_lmax, ← hT, hs]
  have h1 := calculateProperties_fst d₁
  have h2 := calculateProperties_fst d₂
  rw [← calculateProperties_lmax, ← calculateProperties_lmin] at h1 h2
  rw [← hT] at h2
  rcases hf with ⟨n1, n2⟩ | ⟨k, f1, f2⟩
  · rw [n1] at h1
    rw [n2] at h2
    simp only at h1 h2
    rcases calculateProperties_cases d₁ with ⟨_, m1, r1⟩ | ⟨f, hf1, _⟩
    · rcases calculateProperties_cases d₂ with ⟨_, m2, r2⟩ | ⟨f, hf2, _⟩
      · have hr : d₁.calculateProperties.2.lrange = d₂.calculateProperties.2.lrange := by
          rw [r1, r2, hmin, hmax]
        have hmean : d₁.calculateProperties.2.loverallMean =
            d₂.calculateProperties.2.loverallMean := by
          rw [m1, m2, ← hT, hs]
        rw [hmin, hmax] at h1
        by_cases hw : wrapInt (d₂.calculateProperties.2.lmax - d₂.calculateProperties.2.lmin) = 0
        · rw [if_pos hw] at h1 h2
          rw [h1, h2]
          refine ⟨rfl, fun hname => by rw [hname], hmin, hmax, hmean, fun _ => hr, ?_⟩
          rintro ⟨k, hk⟩
          simp [outcome] at hk
        · rw [if_neg hw] at h1 h2
          rw [h1, h2]
          refine ⟨rfl, fun _ => rfl, hmin, hmax, hmean, fun _ => hr, ?_⟩
          rintro ⟨k, hk⟩
          simp [outcome] at hk
      · rw [← hT, n2] at hf2
        exact absurd hf2 (by simp)
    · rw [n1] at hf1
      exact absurd hf1 (by simp)
  · rw [f1] at h1
    rw [f2] at h2
    simp only at h1 h2
    rcases calculateProperties_cases d₁ with ⟨hnone, _, _⟩ | ⟨f, _, _, m1, r1⟩
    · rw [f1] at hnone
      exact absurd hnone (by simp)
    · rcases calculateProperties_cases d₂ with ⟨hnone, _, _⟩ | ⟨g, _, _, m2, r2⟩
      · rw [← hT, f2] at hnone
        exact absurd hnone (by simp)
      · have hmean : d₁.calculateProperties.2.loverallMean =
            d₂.calculateProperties.2.loverallMean := by
          rw [m1, m2, ← hT, hs]
        rw [h1, h2]
        refine ⟨rfl, fun hname => by rw [hname], hmin, hmax, hmean, ?_, fun _ => ⟨r1, r2⟩⟩
        intro hno
        exact absurd rfl (hno k)


/-- C15: two data objects with the same T and N, the same missing plane and the
same values at the non-missing cells get the same outcome from
`calculateProperties` (the same failure, for the same observation; the very
same exception when the variable names agree) and, when it returns normally,
the same `min`, `max`, `overallMean` and `range`, whatever else they hold.  The
call changes none of the three planes nor the similarity constants, and a
second call in a row has the outcome and leaves the derived statistics of the
first. -/
theorem C15_calculateProperties_reads_planes_only (d₁ d₂ : BehaviorLongitudinalData K)
    (hT : d₁.observationCount = d₂.observationCount) (hn : d₁.n = d₂.n)
    (hm : ∀ o < d₁.observationCount, ∀ a < d₁.n, d₁.missing o a = d₂.missing o a)
    (hv : ∀ o < d₁.observationCount, ∀ a < d₁.n, d₁.missing o a = false →
      d₁.value o a = d₂.value o a) :
    outcome d₁.calculateProperties.1 = outcome d₂.calculateProperties.1 ∧
      (d₁.name = d₂.name → d₁.calculateProperties.1 = d₂.calculateProperties.1) ∧
      (d₁.calculateProperties.1 = Except.ok () →
        d₁.calculateProperties.2.min = d₂.calculateProperties.2.min ∧
          d₁.calculateProperties.2.max = d₂.calculateProperties.2.max ∧
          d₁.calculateProperties.2.overallMean = d₂.calculateProperties.2.overallMean ∧
          d₁.calculateProperties.2.range = d₂.calculateProperties.2.range) ∧
      ((∀ o a, d₁.calculateProperties.2.value o a = d₁.value o a ∧
          d₁.calculateProperties.2.missing o a = d₁.missing o a ∧
          d₁.calculateProperties.2.structural o a = d₁.structural o a) ∧
        d₁.calculateProperties.2.similarityMean = d₁.similarityMean ∧
        d₁.calculateProperties.2.lsimilarityMeans = d₁.lsimilarityMeans) ∧
      (d₁.calculateProperties.2.calculateProperties.1 = d₁.calculateProperties.1 ∧
        d₁.calculateProperties.2.calculateProperties.2.min = d₁.calculateProperties.2.min ∧
        d₁.calculateProperties.2.calculateProperties.2.max = d₁.calculateProperties.2.max ∧
        d₁.calculateProperties.2.calculateProperties.2.overallMean =
          d₁.calculateProperties.2.overallMean ∧
        d₁.calculateProperties.2.calculateProperties.2.range =
          d₁.calculateProperties.2.range) := by
  obtain ⟨c1, c2, c3, c4, c5, c6, _⟩ := calculateProperties_congr d₁ d₂ hT hn hm hv
  obtain ⟨pv, pm, ps, pn, pT⟩ := calculateProperties_planes d₁
  obtain ⟨sm, s1⟩ := calculateProperties_similarityMeans d₁
  refine ⟨c1, c2, fun hok => ⟨c3, c4, c5, c6 ?_⟩, ⟨fun o a => ?_, s1, sm⟩, ?_⟩
  · intro k hk
    rw [hok] at hk
    simp [outcome] at hk
  · simp only [value, missing, structural, pv, pm, ps, and_self]
  · obtain ⟨_, e2, e3, e4, e5, e6, e7⟩ := calculateProperties_congr d₁.calculateProperties.2 d₁
      pT pn (fun o _ a _ => by rw [pm]) (fun o _ a _ _ => by rw [pv])
    refine ⟨e2 (calculateProperties_name d₁), ?_, ?_, ?_, ?_⟩
    · exact e3
    · exact e4
    · exact e5
    · simp only [range]
      by_cases hno : ∃ k, outcome d₁.calculateProperties.2.calculateProperties.1 =
          Outcome.noValidData k
      · exact (e7 hno).1
      · exact e6 (fun k hk => hno ⟨k, hk⟩)


/-- C15, on two objects that differ in the value of a missing cell (3 and 99),
in the structural flags, the similarity constants and the stored statistics:
both calls return normally with `min = 1`, `max = 4`, `range = 3` and the same
overall mean. -/
theorem C15_calculateProperties_reads_planes_only_witness :
    dataOneMissing.value 0 1 ≠ dataOneMissingVariant.value 0 1 ∧
      dataOneMissing.calculateProperties.1 = Except.ok () ∧
      dataOneMissing.calculateProperties.2.min = 1 ∧
      dataOneMissing.calculateProperties.2.max = 4 ∧
      dataOneMissing.calculateProperties.2.range = 3 ∧
      dataOneMissing.calculateProperties.2.min = dataOneMissingVariant.calculateProperties.2.min ∧
      dataOneMissing.calculateProperties.2.max = dataOneMissingVariant.calculateProperties.2.max ∧
      dataOneMissing.calculateProperties.2.overallMean =
        dataOneMissingVariant.calculateProperties.2.overallMean ∧
      dataOneMissing.calculateProperties.2.range =
        dataOneMissingVariant.calculateProperties.2.range :=
  ⟨by decide, rfl, by decide, by decide, by decide,
    (C15_calculateProperties_reads_planes_only dataOneMissing dataOneMissingVariant rfl rfl
      (by decide) (by decide)).2.2.1 rfl⟩

end BehaviorLongitudinalData

namespace MaxAlterEffect

variable {K : Type} [LinearOrderedField K]

/-! ### The aggregate over the alters -/

/-- A non-empty list of alters has a maximum (minimum) value. -/
theorem exists_isExtremeOfAlters (minim : Bool) (values : Nat → K) (l : List Nat)
    (hl : l ≠ []) : ∃ m, IsExtremeOfAlters minim values l m := by
  cases l with
  | nil => exact absurd rfl hl
  | cons b rest =>
    cases minim with
    | false =>
      obtain ⟨h1, h2, h3⟩ := foldl_improve_false_spec values rest (values b)
      refine ⟨rest.foldl (improve false values) (values b), ?_, ?_⟩
      · rcases h3 with h | ⟨a, ha, hv⟩
        · exact ⟨b, List.mem_cons_self _ _, h.symm⟩
        · exact ⟨a, List.mem_cons_of_mem _ ha, hv⟩
      · intro a ha
        simp only [Bool.false_eq_true, if_false]
        rcases List.mem_cons.mp ha with rfl | ha
        · exact h1
        · exact h2 a ha
    | true =>
      obtain ⟨h1, h2, h3⟩ := foldl_improve_true_spec values rest (values b)
      refine ⟨rest.foldl (improve true values) (values b), ?_, ?_⟩
      · rcases h3 with h | ⟨a, ha, hv⟩
        · exact ⟨b, List.mem_cons_self _ _, h.symm⟩
        · exact ⟨a, List.mem_cons_of_mem _ ha, hv⟩
      · intro a ha
        simp only [if_true]
        rcases List.mem_cons.mp ha with rfl | ha
        · exact h1
        · exact h2 a ha

/-- The scan from the sentinel gives the extreme `m` of the alters when `m` is
within the sentinel. -/
theorem aggregate_within (minim : Bool) (values : Nat → K) (l : List Nat) (m : K)
    (hm : IsExtremeOfAlters minim values l m)
    (hb : if minim = true then m ≤ 1000 else -1000 ≤ m) :
    l.foldl (improve minim values) (sentinel minim) = m := by
  cases minim with
  | false =>
    simp only [Bool.false_eq_true, if_false] at hb
    rw [foldl_improve_false values l _ m hm]
    simp only [sentinel, Bool.false_eq_true, if_false]
    exact max_eq_left hb
  | true =>
    simp only [if_true] at hb
    rw [foldl_improve_true values l _ m hm]
    simp only [sentinel, if_true]
    exact min_eq_left hb

/-- The scan from the sentinel gives the sentinel when every alter's value is
strictly beyond it. -/
theorem aggregate_beyond (minim : Bool) (values : Nat → K) (l : List Nat)
    (hb : ∀ a ∈ l, if minim = true then 1000 < values a else values a < -1000) :
    l.foldl (improve minim values) (sentinel minim) = sentinel minim := by
  cases minim with
  | false =>
    simp only [Bool.false_eq_true, if_false] at hb
    obtain ⟨h1, _, h3⟩ := foldl_improve_false_spec values l (sentinel false)
    rcases h3 with h | ⟨a, ha, hv⟩
    · exact h
    · have := hb a ha
      rw [hv] at this
      have hs : (sentinel false : K) = -1000 := by simp [sentinel]
      rw [hs] at h1
      exact absurd this (not_lt.mpr h1)
  | true =>
    simp only [if_true] at hb
    obtain ⟨h1, _, h3⟩ := foldl_improve_true_spec values l (sentinel true)
    rcases h3 with h | ⟨a, ha, hv⟩
    · exact h
    · have := hb a ha
      rw [hv] at this
      have hs : (sentinel true : K) = 1000 := by simp [sentinel]
      rw [hs] at h1
      exact absurd this (not_lt.mpr h1)

/-- The scan depends on the set of alters only. -/
theorem foldl_improve_same_members (minim : Bool) (values : Nat → K) (l₁ l₂ : List Nat)
    (acc : K) (h : ∀ a, a ∈ l₁ ↔ a ∈ l₂) :
    l₁.foldl (improve minim values) acc = l₂.foldl (improve minim values) acc := by
  cases minim with
  | false =>
    obtain ⟨a1, a2, a3⟩ := foldl_improve_false_spec values l₁ acc
    obtain ⟨b1, b2, b3⟩ := foldl_improve_false_spec values l₂ acc
    apply le_antisymm
    · rcases a3 with h3 | ⟨a, ha, hv⟩
      · rw [h3]; exact b1
      · rw [← hv]; exact b2 a ((h a).mp ha)
    · rcases b3 with h3 | ⟨a, ha, hv⟩
      · rw [h3]; exact a1
      · rw [← hv]; exact a2 a ((h a).mpr ha)
  | true =>
    obtain ⟨a1, a2, a3⟩ := foldl_improve_true_spec values l₁ acc
    obtain ⟨b1, b2, b3⟩ := foldl_improve_true_spec values l₂ acc
    apply le_antisymm
    · rcases b3 with h3 | ⟨a, ha, hv⟩
      · rw [h3]; exact a1
      · rw [← hv]; exact a2 a ((h a).mpr ha)
    · rcases a3 with h3 | ⟨a, ha, hv⟩
      · rw [h3]; exact b1
      · rw [← hv]; exact b2 a ((h a).mp ha)

/-- The maximum scan of the negated values from the negated start is the
negated minimum scan. -/
theorem foldl_improve_neg (values : Nat → K) (l : List Nat) (acc : K) :
    l.foldl (improve false (fun a => -values a)) (-acc) =
      -l.foldl (improve true values) acc := by
  induction l generalizing acc with
  | nil => rfl
  | cons b l ih =>
    rw [List.foldl_cons, List.foldl_cons]
    have hstep : improve false (fun a => -values a) (-acc) b = -improve true values acc b := by
      unfold improve
      simp only [Bool.false_eq_true, if_false, if_true, gt_iff_lt, neg_lt_neg_iff]
      split_ifs <;> rfl
    rw [hstep]
    exact ih _

theorem outTies_withOutTies (e : MaxAlterEffect K) (actor : Nat) (alters : List Nat) :
    (withOutTies e actor alters).pNetwork.outTies actor = alters := by
  simp [withOutTies]


/-! ### Claims on the aggregate of `MaxAlterEffect` -/

/-- C16: for an actor with at least one out-tie (so that the alters' values
have a maximum, or minimum when `minim`, `m`) and `d ≠ 0`: if every alter's
value is at least -1000 (at most 1000 when `minim`), then
`changeContribution(actor, d) = d * m` and `egoStatistic(actor, cv) = cv[actor] * m`;
if every alter's value is below -1000 (above 1000), the aggregate is the
sentinel -1000 (1000), which is no alter's value. -/
theorem C16_sentinel_within_bound (e : MaxAlterEffect K) (actor : Nat) (d : Int)
    (cv : Nat → K) (hdeg : 0 < e.pNetwork.outDegree actor) (hd : d ≠ 0) :
    (∃ m, IsExtremeOfAlters e.lminim e.centeredValue (e.pNetwork.outTies actor) m) ∧
      (∃ m, IsExtremeOfAlters e.lminim cv (e.pNetwork.outTies actor) m) ∧
      (∀ m, IsExtremeOfAlters e.lminim e.centeredValue (e.pNetwork.outTies actor) m →
        (∀ a ∈ e.pNetwork.outTies actor,
          if e.lminim = true then e.centeredValue a ≤ 1000 else -1000 ≤ e.centeredValue a) →
        e.calculateChangeContribution actor d = (d : K) * m) ∧
      (∀ m, IsExtremeOfAlters e.lminim cv (e.pNetwork.outTies actor) m →
        (∀ a ∈ e.pNetwork.outTies actor,
          if e.lminim = true then cv a ≤ 1000 else -1000 ≤ cv a) →
        e.egoStatistic actor cv = cv actor * m) ∧
      ((∀ a ∈ e.pNetwork.outTies actor,
          if e.lminim = true then 1000 < e.centeredValue a else e.centeredValue a < -1000) →
        e.calculateChangeContribution actor d =
            (d : K) * (if e.lminim = true then 1000 else -1000) ∧
          ∀ a ∈ e.pNetwork.outTies actor,
            e.centeredValue a ≠ (if e.lminim = true then 1000 else -1000)) ∧
      ((∀ a ∈ e.pNetwork.outTies actor,
          if e.lminim = true then 1000 < cv a else cv a < -1000) →
        e.egoStatistic actor cv = cv actor * (if e.lminim = true then 1000 else -1000) ∧
          ∀ a ∈ e.pNetwork.outTies actor,
            cv a ≠ (if e.lminim = true then 1000 else -1000)) := by
  have hne : e.pNetwork.outTies actor ≠ [] := (outDegree_pos_iff _ _).mp hdeg
  have hbound : ∀ (values : Nat → K) (m : K),
      IsExtremeOfAlters e.lminim values (e.pNetwork.outTies actor) m →
      (∀ a ∈ e.pNetwork.outTies actor,
        if e.lminim = true then values a ≤ 1000 else -1000 ≤ values a) →
      (if e.lminim = true then m ≤ 1000 else -1000 ≤ m) := by
    intro values m hm hall
    obtain ⟨⟨a, ha, hav⟩, _⟩ := hm
    rw [← hav]
    exact hall a ha
  have hnot : ∀ (values : Nat → K),
      (∀ a ∈ e.pNetwork.outTies actor,
        if e.lminim = true then 1000 < values a else values a < -1000) →
      ∀ a ∈ e.pNetwork.outTies actor, values a ≠ (if e.lminim = true then 1000 else -1000) := by
    intro values hall a ha hc
    have := hall a ha
    rw [hc] at this
    split_ifs at this <;> exact lt_irrefl _ this
  have hsent : (sentinel e.lminim : K) = (if e.lminim = true then 1000 else -1000) := rfl
  refine ⟨exists_isExtremeOfAlters _ _ _ hne, exists_isExtremeOfAlters _ _ _ hne,
    fun m hm hall => ?_, fun m hm hall => ?_, fun hall => ⟨?_, hnot _ hall⟩,
    fun hall => ⟨?_, hnot _ hall⟩⟩
  · unfold calculateChangeContribution
    rw [if_pos ⟨hdeg, hd⟩]
    simp only
    rw [aggregate_within _ _ _ m hm (hbound _ m hm hall), mul_comm]
  · rw [egoStatistic_eq_singleScan]
    unfold egoStatisticSingleScan
    rw [if_pos hdeg, aggregate_within _ _ _ m hm (hbound _ m hm hall), mul_comm]
  · unfold calculateChangeContribution
    rw [if_pos ⟨hdeg, hd⟩]
    simp only
    rw [aggregate_beyond _ _ _ hall, hsent, mul_comm]
  · rw [egoStatistic_eq_singleScan]
    unfold egoStatisticSingleScan
    rw [if_pos hdeg, aggregate_beyond _ _ _ hall, hsent, mul_comm]

/-- C16, on alters with the values `{2, 5, -1}` (all at least -1000) and
`d = 1`, maximum mode: the contribution is `1 * 5`; and on one alter with the
value -2000: the contribution is `1 * -1000`. -/
theorem C16_sentinel_within_bound_witness :
    (effectThreeAlters false).calculateChangeContribution 0 1 = ((1 : Int) : ℚ) * 5 ∧
      (effectFarAlter false).calculateChangeContribution 0 1 =
        ((1 : Int) : ℚ) * (if (effectFarAlter false).lminim = true then 1000 else -1000) :=
  have hmax : IsExtremeOfAlters (effectThreeAlters false).lminim
      (effectThreeAlters false).centeredValue
      ((effectThreeAlters false).pNetwork.outTies 0) 5 := by
    refine ⟨⟨2, by simp [effectThreeAlters], by simp [effectThreeAlters]⟩, ?_⟩
    intro a ha
    simp only [effectThreeAlters, if_true, List.mem_cons, List.mem_singleton,
      List.not_mem_nil, or_false] at ha
    rcases ha with rfl | rfl | rfl <;> norm_num [effectThreeAlters]
  have hall : ∀ a ∈ (effectThreeAlters false).pNetwork.outTies 0,
      if (effectThreeAlters false).lminim = true
      then (effectThreeAlters false).centeredValue a ≤ 1000
      else -1000 ≤ (effectThreeAlters false).centeredValue a := by
    intro a ha
    simp only [effectThreeAlters, if_true, List.mem_cons, List.mem_singleton,
      List.not_mem_nil, or_false] at ha
    rcases ha with rfl | rfl | rfl <;> norm_num [effectThreeAlters]
  have hfar : ∀ a ∈ (effectFarAlter false).pNetwork.outTies 0,
      if (effectFarAlter false).lminim = true
      then 1000 < (effectFarAlter false).centeredValue a
      else (effectFarAlter false).centeredValue a < -1000 := by
    intro a _
    norm_num [effectFarAlter]
  ⟨(C16_sentinel_within_bound (effectThreeAlters false) 0 1
      (effectThreeAlters false).centeredValue (by decide) (by decide)).2.2.1 5 hmax hall,
    ((C16_sentinel_within_bound (effectFarAlter false) 0 1
      (effectFarAlter false).centeredValue (by decide) (by decide)).2.2.2.2.1 hfar).1⟩

/-- C17: the change contribution and the ego statistic of an actor are the same
when its out-tie list is replaced by a list with the same alters, in
particular by a permutation of it or by it with the duplicates removed. -/
theorem C17_tie_order_irrelevant (e : MaxAlterEffect K) (actor : Nat) (d : Int)
    (cv : Nat → K) :
    (∀ l : List Nat, (∀ a, a ∈ l ↔ a ∈ e.pNetwork.outTies actor) →
        (withOutTies e actor l).calculateChangeContribution actor d =
            e.calculateChangeContribution actor d ∧
          (withOutTies e actor l).egoStatistic actor cv = e.egoStatistic actor cv) ∧
      (∀ l : List Nat, l.Perm (e.pNetwork.outTies actor) →
        (withOutTies e actor l).calculateChangeContribution actor d =
            e.calculateChangeContribution actor d ∧
          (withOutTies e actor l).egoStatistic actor cv = e.egoStatistic actor cv) ∧
      ((withOutTies e actor (e.pNetwork.outTies actor).dedup).calculateChangeContribution
            actor d = e.calculateChangeContribution actor d ∧
        (withOutTies e actor (e.pNetwork.outTies actor).dedup).egoStatistic actor cv =
          e.egoStatistic actor cv) := by
  have main : ∀ l : List Nat, (∀ a, a ∈ l ↔ a ∈ e.pNetwork.outTies actor) →
      (withOutTies e actor l).calculateChangeContribution actor d =
          e.calculateChangeContribution actor d ∧
        (withOutTies e actor l).egoStatistic actor cv = e.egoStatistic actor cv := by
    intro l hl
    have hdeg : (withOutTies e actor l).pNetwork.outDegree actor > 0 ↔
        e.pNetwork.outDegree actor > 0 := by
      rw [outDegree_pos_iff, outDegree_pos_iff, outTies_withOutTies]
      constructor
      · intro h hc
        obtain ⟨a, ha⟩ := List.exists_mem_of_ne_nil l h
        have := (hl a).mp ha
        rw [hc] at this
        exact List.not_mem_nil a this
      · intro h hc
        obtain ⟨a, ha⟩ := List.exists_mem_of_ne_nil _ h
        have := (hl a).mpr ha
        rw [hc] at this
        exact List.not_mem_nil a this
    have hmin : (withOutTies e actor l).lminim = e.lminim := rfl
    have hval : (withOutTies e actor l).centeredValue = e.centeredValue := rfl
    constructor
    · unfold calculateChangeContribution
      simp only [hdeg, outTies_withOutTies, hmin, hval]
      rw [foldl_improve_same_members _ _ l (e.pNetwork.outTies actor) _ hl]
    · rw [egoStatistic_eq_singleScan, egoStatistic_eq_singleScan]
      unfold egoStatisticSingleScan
      simp only [hdeg, outTies_withOutTies, hmin]
      rw [foldl_improve_same_members _ _ l (e.pNetwork.outTies actor) _ hl]
  exact ⟨main, fun l hp => main l (fun a => hp.mem_iff),
    main _ (fun a => List.mem_dedup)⟩

/-- C17, on the three-alter effect: with the out-ties of actor 0 listed as
3, 1, 2, 2 instead of 1, 2, 3 the contribution for `d = 1` is unchanged. -/
theorem C17_tie_order_irrelevant_witness :
    (withOutTies (effectThreeAlters false) 0 [3, 1, 2, 2]).calculateChangeContribution 0 1 =
        (effectThreeAlters false).calculateChangeContribution 0 1 ∧
      (withOutTies (effectThreeAlters false) 0 [3, 1, 2, 2]).egoStatistic 0
          (effectThreeAlters false).centeredValue =
        (effectThreeAlters false).egoStatistic 0 (effectThreeAlters false).centeredValue :=
  (C17_tie_order_irrelevant (effectThreeAlters false) 0 1
    (effectThreeAlters false).centeredValue).1 [3, 1, 2, 2]
    (by intro a; simp [effectThreeAlters]; tauto)

/-- C18: on the same network, the change contribution in minimum mode on the
centered values `c` is minus the change contribution in maximum mode on `-c`,
and the ego statistic in minimum mode on `cv` is the ego statistic in maximum
mode on `-cv`. -/
theorem C18_min_max_dual (net : Network) (c c₀ c₁ cv : Nat → K) (actor : Nat) (d : Int) :
    calculateChangeContribution { lminim := true, pNetwork := net, centeredValue := c }
          actor d =
        -calculateChangeContribution
          { lminim := false, pNetwork := net, centeredValue := fun a => -c a } actor d ∧
      egoStatistic { lminim := true, pNetwork := net, centeredValue := c₀ } actor cv =
        egoStatistic { lminim := false, pNetwork := net, centeredValue := c₁ } actor
          (fun a => -cv a) := by
  have hs : (sentinel false : K) = -sentinel true := by simp [sentinel]
  constructor
  · unfold calculateChangeContribution
    simp only
    split_ifs with h
    · rw [hs, foldl_improve_neg]
      ring
    · simp
  · rw [egoStatistic_eq_singleScan, egoStatistic_eq_singleScan]
    unfold egoStatisticSingleScan
    simp only
    split_ifs with h
    · rw [hs, foldl_improve_neg]
      ring
    · rfl

end MaxAlterEffect

namespace BehaviorLongitudinalData

variable {K : Type} [LinearOrderedField K]

/-! ### The overall mean and the similarity within the observed range -/

/-- A sum of terms between `lo` and `hi` is between `length * lo` and
`length * hi`. -/
theorem sum_map_bounds {R : Type} [LinearOrderedCommRing R] (l : List Nat) (f : Nat → R)
    (lo hi : R) (h : ∀ a ∈ l, lo ≤ f a ∧ f a ≤ hi) :
    (l.length : R) * lo ≤ (l.map f).sum ∧ (l.map f).sum ≤ (l.length : R) * hi := by
  induction l with
  | nil => simp
  | cons b l ih =>
    obtain ⟨h1, h2⟩ := ih (fun a ha => h a (List.mem_cons_of_mem _ ha))
    obtain ⟨b1, b2⟩ := h b (List.mem_cons_self _ _)
    simp only [List.map_cons, List.sum_cons, List.length_cons, Nat.cast_add, Nat.cast_one]
    rw [add_mul, add_mul, one_mul, one_mul]
    constructor
    · linarith
    · linarith

/-- With no observation the call leaves `lmin = INT_MAX` and `lmax = INT_MIN`. -/
theorem extremes_of_no_observation (d : BehaviorLongitudinalData K)
    (hT : d.observationCount = 0) :
    d.calculateProperties.2.lmin = INT_MAX ∧ d.calculateProperties.2.lmax = INT_MIN := by
  rw [calculateProperties_lmin, calculateProperties_lmax, hT]
  exact ⟨rfl, rfl⟩

/-- After a normal return on `int` cells with at least one observation, when
`lmax - lmin` is at most `INT_MAX`, `lrange` is that difference and is
positive. -/
theorem lrange_of_fits (d : BehaviorLongitudinalData K) (hT : 1 ≤ d.observationCount)
    (hcells : IntCells d) (hok : d.calculateProperties.1 = Except.ok ())
    (hfit : d.calculateProperties.2.lmax - d.calculateProperties.2.lmin ≤ INT_MAX) :
    d.calculateProperties.2.lrange =
        d.calculateProperties.2.lmax - d.calculateProperties.2.lmin ∧
      0 < d.calculateProperties.2.lrange := by
  obtain ⟨hrows, hw⟩ := (calculateProperties_ok_iff d).mp hok
  obtain ⟨_, hle, _, _⟩ := range_zero_iff_all_equal d hT hcells hrows
  have hr := calculateProperties_lrange d ((scan_none_iff d _).mpr hrows)
  have hwrap : wrapInt (d.calculateProperties.2.lmax - d.calculateProperties.2.lmin) =
      d.calculateProperties.2.lmax - d.calculateProperties.2.lmin :=
    wrapInt_of_int (by unfold INT_MIN; omega) hfit
  rw [hr, hwrap]
  rw [hwrap] at hw
  exact ⟨rfl, by omega⟩

/-- With at least one observation, valid rows, `int` cells and exact
per-observation sums, the overall mean lies between `lmin` and `lmax`. -/
theorem overallMean_between (d : BehaviorLongitudinalData K) (hT : 1 ≤ d.observationCount)
    (hcells : IntCells d)
    (hrows : ∀ o < d.observationCount, ∃ a < d.n, d.lmissing o a = false)
    (hsum : ∀ o < d.observationCount,
      INT_MIN ≤ observationSum d o ∧ observationSum d o ≤ INT_MAX) :
    (d.calculateProperties.2.lmin : K) ≤ d.calculateProperties.2.loverallMean ∧
      d.calculateProperties.2.loverallMean ≤ (d.calculateProperties.2.lmax : K) := by
  obtain ⟨hb, _, _⟩ := extremes_of_valid d hT hcells hrows
  have hmean : d.calculateProperties.2.loverallMean = meanOfMeans d := by
    rw [overallMean_of_valid d hrows, meanOfMeans]
    congr 2
    apply List.map_congr_left
    intro i hi
    obtain ⟨h1, h2⟩ := hsum i (List.mem_range.mp hi)
    rw [wrapInt_of_int h1 h2, observationMean]
  have hrow : ∀ o ∈ List.range d.observationCount,
      (d.calculateProperties.2.lmin : K) ≤ observationMean d o ∧
        observationMean d o ≤ (d.calculateProperties.2.lmax : K) := by
    intro o ho
    have ho' := List.mem_range.mp ho
    have hcnt : (nonMissingActors d o).length ≠ 0 := rows_count_ne_zero d hrows o ho
    have hpos : (0 : K) < ((nonMissingActors d o).length : K) := by
      exact_mod_cast Nat.pos_of_ne_zero hcnt
    obtain ⟨s1, s2⟩ := sum_map_bounds (nonMissingActors d o) (d.lvalues o)
      d.calculateProperties.2.lmin d.calculateProperties.2.lmax
      (fun a ha => by
        obtain ⟨h1, h2⟩ := (mem_nonMissingActors d o a).mp ha
        exact hb o ho' a h1 h2)
    have c1 : ((nonMissingActors d o).length : K) * (d.calculateProperties.2.lmin : K) ≤
        (observationSum d o : K) := by
      unfold observationSum
      exact_mod_cast s1
    have c2 : (observationSum d o : K) ≤
        ((nonMissingActors d o).length : K) * (d.calculateProperties.2.lmax : K) := by
      unfold observationSum
      exact_mod_cast s2
    unfold observationMean
    constructor
    · rw [le_div_iff₀ hpos]
      linarith
    · rw [div_le_iff₀ hpos]
      linarith
  obtain ⟨t1, t2⟩ := sum_map_bounds (List.range d.observationCount) (observationMean d)
    (d.calculateProperties.2.lmin : K) (d.calculateProperties.2.lmax : K) hrow
  rw [List.length_range] at t1 t2
  have hTpos : (0 : K) < (d.observationCount : K) := by exact_mod_cast hT
  rw [hmean, meanOfMeans]
  constructor
  · rw [le_div_iff₀ hTpos]
    linarith
  · rw [div_le_iff₀ hTpos]
    linarith


/-- C19 (amended): for a data set of `int` cells with at least one observation
on which `calculateProperties` returns normally, the per-observation sums being
exact (within the `int` range), `min() ≤ overallMean() ≤ max()`; hence every
centered value of a non-missing cell has absolute value at most
`max() - min()`, which is `range()` when `max() - min()` is at most `INT_MAX`. -/
theorem C19_overall_mean_within_range (d : BehaviorLongitudinalData K)
    (hT : 1 ≤ d.observationCount) (hcells : IntCells d)
    (hok : d.calculateProperties.1 = Except.ok ())
    (hsum : ∀ o < d.observationCount,
      INT_MIN ≤ observationSum d o ∧ observationSum d o ≤ INT_MAX) :
    (d.calculateProperties.2.min : K) ≤ d.calculateProperties.2.overallMean ∧
      d.calculateProperties.2.overallMean ≤ (d.calculateProperties.2.max : K) ∧
      (∀ o < d.observationCount, ∀ a < d.n, d.calculateProperties.2.missing o a = false →
        |(d.calculateProperties.2.value o a : K) - d.calculateProperties.2.overallMean| ≤
          ((d.calculateProperties.2.max - d.calculateProperties.2.min : Int) : K)) ∧
      (d.calculateProperties.2.max - d.calculateProperties.2.min ≤ INT_MAX →
        ∀ o < d.observationCount, ∀ a < d.n, d.calculateProperties.2.missing o a = false →
          |(d.calculateProperties.2.value o a : K) - d.calculateProperties.2.overallMean| ≤
            (d.calculateProperties.2.range : K)) := by
  obtain ⟨hrows, _⟩ := (calculateProperties_ok_iff d).mp hok
  obtain ⟨m1, m2⟩ := overallMean_between d hT hcells hrows hsum
  obtain ⟨hb, _, _⟩ := extremes_of_valid d hT hcells hrows
  obtain ⟨pv, pm, _, _, _⟩ := calculateProperties_planes d
  simp only [min, max, overallMean, range, value, missing, pv, pm]
  have hcent : ∀ o < d.observationCount, ∀ a < d.n, d.lmissing o a = false →
      |(d.lvalues o a : K) - d.calculateProperties.2.loverallMean| ≤
        ((d.calculateProperties.2.lmax - d.calculateProperties.2.lmin : Int) : K) := by
    intro o ho a ha hnm
    obtain ⟨v1, v2⟩ := hb o ho a ha hnm
    have w1 : (d.calculateProperties.2.lmin : K) ≤ (d.lvalues o a : K) := by exact_mod_cast v1
    have w2 : (d.lvalues o a : K) ≤ (d.calculateProperties.2.lmax : K) := by exact_mod_cast v2
    rw [abs_le]
    push_cast
    constructor <;> linarith
  refine ⟨m1, m2, hcent, fun hfit o ho a ha hnm => ?_⟩
  rw [(lrange_of_fits d hT hcells hok hfit).1]
  exact hcent o ho a ha hnm

/-- C19 (amended), on the values `{[1,3],[2,4]}`: the overall mean `5/2` lies
between `min = 1` and `max = 4`. -/
theorem C19_overall_mean_within_range_witness :
    dataTwoByTwo.calculateProperties.2.min = 1 ∧
      dataTwoByTwo.calculateProperties.2.max = 4 ∧
      (dataTwoByTwo.calculateProperties.2.min : ℚ) ≤
        dataTwoByTwo.calculateProperties.2.overallMean ∧
      dataTwoByTwo.calculateProperties.2.overallMean ≤
        (dataTwoByTwo.calculateProperties.2.max : ℚ) :=
  ⟨by decide, by decide,
    (C19_overall_mean_within_range dataTwoByTwo (by decide) (by unfold IntCells; decide) rfl
      (by unfold INT_MIN INT_MAX; decide)).1,
    (C19_overall_mean_within_range dataTwoByTwo (by decide) (by unfold IntCells; decide) rfl
      (by unfold INT_MIN INT_MAX; decide)).2.1⟩

/-- C19 refuted as stated: one observation holding -1 and `INT_MAX`.  The call
returns normally, the sum `2147483646` is exact, the overall mean is
`1073741823`, and the centered value of the cell holding `INT_MAX` is
`1073741824`, while `range()` is `INT_MIN`. -/
theorem C19_counterexample :
    1 ≤ dataLargeRange.observationCount ∧ IntCells dataLargeRange ∧
      dataLargeRange.calculateProperties.1 = Except.ok () ∧
      observationSum dataLargeRange 0 = 2147483646 ∧
      dataLargeRange.calculateProperties.2.missing 0 1 = false ∧
      dataLargeRange.calculateProperties.2.overallMean = 1073741823 ∧
      dataLargeRange.calculateProperties.2.value 0 1 = 2147483647 ∧
      dataLargeRange.calculateProperties.2.range = -2147483648 ∧
      ¬ |(dataLargeRange.calculateProperties.2.value 0 1 : ℚ) -
            dataLargeRange.calculateProperties.2.overallMean| ≤
          (dataLargeRange.calculateProperties.2.range : ℚ) := by
  have hmean : dataLargeRange.calculateProperties.2.overallMean = 1073741823 := by
    norm_num [calculateProperties, scanObservations, scanRow, scanActors, scanActor,
      overallMean, dataLargeRange, dataOfRows, List.range, List.range.loop, wrapInt,
      INT_MAX, INT_MIN]
  have hval : dataLargeRange.calculateProperties.2.value 0 1 = 2147483647 := by decide
  have hrange : dataLargeRange.calculateProperties.2.range = -2147483648 := by decide
  refine ⟨by decide, by unfold IntCells; decide, rfl, by decide, by decide, hmean, hval,
    hrange, ?_⟩
  rw [hmean, hval, hrange]
  norm_num

/-- C20 (amended): on a data set of `int` cells on which `calculateProperties`
has returned normally with `max() - min()` at most `INT_MAX`, for all `a`, `b`
between `min()` and `max()`: `0 ≤ similarity(a, b) + similarityMean() ≤ 1`,
with value 1 exactly when `a = b` and value 0 exactly when `a`, `b` are
`min()` and `max()` in some order. -/
theorem C20_similarity_is_fraction (d : BehaviorLongitudinalData K) (hcells : IntCells d)
    (hok : d.calculateProperties.1 = Except.ok ())
    (hfit : d.calculateProperties.2.max - d.calculateProperties.2.min ≤ INT_MAX)
    (a b : K)
    (ha : (d.calculateProperties.2.min : K) ≤ a ∧ a ≤ (d.calculateProperties.2.max : K))
    (hb : (d.calculateProperties.2.min : K) ≤ b ∧ b ≤ (d.calculateProperties.2.max : K)) :
    0 ≤ d.calculateProperties.2.similarity a b + d.calculateProperties.2.similarityMean ∧
      d.calculateProperties.2.similarity a b + d.calculateProperties.2.similarityMean ≤ 1 ∧
      (d.calculateProperties.2.similarity a b + d.calculateProperties.2.similarityMean = 1 ↔
        a = b) ∧
      (d.calculateProperties.2.similarity a b + d.calculateProperties.2.similarityMean = 0 ↔
        (a = (d.calculateProperties.2.min : K) ∧ b = (d.calculateProperties.2.max : K)) ∨
          (a = (d.calculateProperties.2.max : K) ∧ b = (d.calculateProperties.2.min : K))) := by
  simp only [min, max] at hfit ha hb ⊢
  have hT : 1 ≤ d.observationCount := by
    by_contra hc
    have h0 : d.observationCount = 0 := by omega
    obtain ⟨e1, e2⟩ := extremes_of_no_observation d h0
    rw [e1, e2] at ha
    have : ((INT_MAX : Int) : K) ≤ ((INT_MIN : Int) : K) := le_trans ha.1 ha.2
    have h2 : INT_MAX ≤ INT_MIN := by exact_mod_cast this
    exact absurd h2 (by decide)
  obtain ⟨hr, hpos⟩ := lrange_of_fits d hT hcells hok hfit
  have hR : ((d.calculateProperties.2.lrange : Int) : K) =
      (d.calculateProperties.2.lmax : K) - (d.calculateProperties.2.lmin : K) := by
    rw [hr]
    push_cast
    rfl
  have hRpos : (0 : K) < ((d.calculateProperties.2.lrange : Int) : K) := by
    exact_mod_cast hpos
  have hsim : d.calculateProperties.2.similarity a b + d.calculateProperties.2.similarityMean =
      1 - |a - b| / ((d.calculateProperties.2.lrange : Int) : K) := by
    unfold similarity similarityMean
    ring
  have habs : |a - b| ≤ ((d.calculateProperties.2.lrange : Int) : K) := by
    rw [hR, abs_le]
    constructor <;> linarith [ha.1, ha.2, hb.1, hb.2]
  have hq1 : |a - b| / ((d.calculateProperties.2.lrange : Int) : K) ≤ 1 :=
    (div_le_one hRpos).mpr habs
  have hq0 : 0 ≤ |a - b| / ((d.calculateProperties.2.lrange : Int) : K) :=
    div_nonneg (abs_nonneg _) (le_of_lt hRpos)
  rw [hsim]
  refine ⟨by linarith, by linarith, ?_, ?_⟩
  · constructor
    · intro h
      have hz : |a - b| / ((d.calculateProperties.2.lrange : Int) : K) = 0 := by linarith
      rcases div_eq_zero_iff.mp hz with h0 | h0
      · exact sub_eq_zero.mp (abs_eq_zero.mp h0)
      · exact absurd h0 (ne_of_gt hRpos)
    · intro h
      rw [h, sub_self, abs_zero, zero_div, sub_zero]
  · constructor
    · intro h
      have h1 : |a - b| / ((d.calculateProperties.2.lrange : Int) : K) = 1 := by linarith
      have h2 : |a - b| = ((d.calculateProperties.2.lrange : Int) : K) := by
        rw [div_eq_iff (ne_of_gt hRpos), one_mul] at h1
        exact h1
      rw [hR] at h2
      rcases abs_cases (a - b) with ⟨h3, _⟩ | ⟨h3, _⟩
      · right
        rw [h3] at h2
        constructor <;> linarith [ha.1, ha.2, hb.1, hb.2]
      · left
        rw [h3] at h2
        constructor <;> linarith [ha.1, ha.2, hb.1, hb.2]
    · rintro (⟨h1, h2⟩ | ⟨h1, h2⟩)
      · have h3 : |a - b| = ((d.calculateProperties.2.lrange : Int) : K) := by
          rw [hR, h1, h2, abs_sub_comm]
          exact abs_of_pos (by rw [← hR]; exact hRpos)
        rw [h3, div_self (ne_of_gt hRpos), sub_self]
      · have h3 : |a - b| = ((d.calculateProperties.2.lrange : Int) : K) := by
          rw [hR, h1, h2]
          exact abs_of_pos (by rw [← hR]; exact hRpos)
        rw [h3, div_self (ne_of_gt hRpos), sub_self]

/-- C20 (amended), on the values `{[1,3],[2,4]}` (`min = 1`, `max = 4`), for
`a = 1` and `b = 4`: the uncentered similarity is 0. -/
theorem C20_similarity_is_fraction_witness :
    dataTwoByTwo.calculateProperties.2.similarity 1 4 +
        dataTwoByTwo.calculateProperties.2.similarityMean = 0 ∧
      (0 ≤ dataTwoByTwo.calculateProperties.2.similarity 1 4 +
          dataTwoByTwo.calculateProperties.2.similarityMean ∧
        dataTwoByTwo.calculateProperties.2.similarity 1 4 +
          dataTwoByTwo.calculateProperties.2.similarityMean ≤ 1) :=
  have hmin : dataTwoByTwo.calculateProperties.2.min = 1 := by decide
  have hmax : dataTwoByTwo.calculateProperties.2.max = 4 := by decide
  have h := C20_similarity_is_fraction dataTwoByTwo (by unfold IntCells; decide) rfl
    (by decide) 1 4 (by rw [hmin, hmax]; norm_num) (by rw [hmin, hmax]; norm_num)
  ⟨h.2.2.2.mpr (Or.inl ⟨by rw [hmin]; norm_num, by rw [hmax]; norm_num⟩), h.1, h.2.1⟩

/-- C20 refuted as stated: one observation holding -1 and `INT_MAX`.  The call
returns normally with `min = -1`, `max = INT_MAX` and `range() = INT_MIN`; for
`a = -1` and `b = 2147483647`, both within `[min, max]`, the uncentered
similarity is 2. -/
theorem C20_counterexample :
    IntCells dataLargeRange ∧
      dataLargeRange.calculateProperties.1 = Except.ok () ∧
      dataLargeRange.calculateProperties.2.min = -1 ∧
      dataLargeRange.calculateProperties.2.max = 2147483647 ∧
      dataLargeRange.calculateProperties.2.range = -2147483648 ∧
      dataLargeRange.calculateProperties.2.similarity (-1) 2147483647 +
          dataLargeRange.calculateProperties.2.similarityMean = 2 ∧
      ¬ dataLargeRange.calculateProperties.2.similarity (-1) 2147483647 +
          dataLargeRange.calculateProperties.2.similarityMean ≤ 1 := by
  have hr : dataLargeRange.calculateProperties.2.lrange = -2147483648 := by decide
  have hs : dataLargeRange.calculateProperties.2.similarity (-1) 2147483647 +
      dataLargeRange.calculateProperties.2.similarityMean = 2 := by
    unfold similarity similarityMean
    rw [hr]
    norm_num
  refine ⟨by unfold IntCells; decide, rfl, by decide, by decide, hr, hs, ?_⟩
  rw [hs]
  norm_num

end BehaviorLongitudinalData

namespace MaxAlterEffect

variable {K : Type} [LinearOrderedField K]

/-! ### The aggregate of `egoStatistic` is read from `currentValues` -/

/-- The tie loop is a running minimum (maximum) of the values it reads. -/
theorem foldl_improve_eq_running (minim : Bool) (values : Nat → K) (l : List Nat) (acc : K) :
    l.foldl (improve minim values) acc =
      l.foldl
        (fun acc alter =>
          if minim = true then Min.min acc (values alter) else Max.max acc (values alter))
        acc := by
  congr 1
  funext x a
  cases minim with
  | false => simp only [improve_false, Bool.false_eq_true, if_false]
  | true => simp only [improve_true, if_true]

/-- C8: `egoStatistic(i, cv)` is the ego's own value `cv[i]` times the aggregate
over the alters read from `cv` (whatever the centered values are): with `m` the
maximum (minimum when `minim`) of the alters' values in `cv`, the aggregate is
the larger of `m` and -1000 (the smaller of `m` and 1000); it is the aggregate
`changeContribution` computes when the centered values are `cv`, so that for
`d ≠ 0`, `d * egoStatistic(i, cv) = cv[i] * changeContribution(i, d)`; and the
nested scan of the code gives what one single pass over the alters gives. -/
theorem C8_ego_statistic_same_aggregate (e : MaxAlterEffect K) (i : Nat) (cv : Nat → K)
    (d : Int) (hd : d ≠ 0) :
    (∀ m, IsExtremeOfAlters e.lminim cv (e.pNetwork.outTies i) m →
        e.egoStatistic i cv =
          cv i * (if e.lminim = true then Min.min m 1000 else Max.max m (-1000))) ∧
      (0 < e.pNetwork.outDegree i →
        ∃ m, IsExtremeOfAlters e.lminim cv (e.pNetwork.outTies i) m) ∧
      (d : K) * e.egoStatistic i cv =
        cv i * calculateChangeContribution
          { lminim := e.lminim, pNetwork := e.pNetwork, centeredValue := cv } i d ∧
      ((∀ a, e.centeredValue a = cv a) →
        (d : K) * e.egoStatistic i cv = cv i * e.calculateChangeContribution i d) ∧
      e.egoStatistic i cv = singleScanStatistic e.lminim (e.pNetwork.outTies i) i cv := by
  have hrel : (d : K) * e.egoStatistic i cv =
      cv i * calculateChangeContribution
        { lminim := e.lminim, pNetwork := e.pNetwork, centeredValue := cv } i d := by
    rw [egoStatistic_eq_singleScan]
    unfold egoStatisticSingleScan calculateChangeContribution
    by_cases h : e.pNetwork.outDegree i > 0
    · rw [if_pos h, if_pos ⟨h, hd⟩]
      ring
    · rw [if_neg h, if_neg (fun hc => h hc.1)]
      ring
  refine ⟨fun m hm => ?_, fun hdeg => ?_, hrel, fun hcv => ?_, ?_⟩
  · have hne : e.pNetwork.outTies i ≠ [] := by
      obtain ⟨⟨a, ha, _⟩, _⟩ := hm
      exact List.ne_nil_of_mem ha
    rw [egoStatistic_eq_singleScan]
    unfold egoStatisticSingleScan
    rw [if_pos ((outDegree_pos_iff _ _).mpr hne)]
    cases hmin : e.lminim with
    | false =>
      rw [hmin] at hm
      rw [foldl_improve_false _ _ _ m hm]
      simp [sentinel, mul_comm]
    | true =>
      rw [hmin] at hm
      rw [foldl_improve_true _ _ _ m hm]
      simp [sentinel, mul_comm]
  · exact exists_isExtremeOfAlters _ _ _ ((outDegree_pos_iff _ _).mp hdeg)
  · have hfun : e.centeredValue = cv := funext hcv
    rw [hrel, ← hfun]
  · rw [egoStatistic_eq_singleScan]
    unfold egoStatisticSingleScan singleScanStatistic
    cases hties : e.pNetwork.outTies i with
    | nil =>
      have h0 : ¬ e.pNetwork.outDegree i > 0 := by
        rw [outDegree_pos_iff, hties]
        exact fun hc => hc rfl
      rw [if_neg h0]
    | cons b rest =>
      have h1 : e.pNetwork.outDegree i > 0 := by
        rw [outDegree_pos_iff, hties]
        exact List.cons_ne_nil _ _
      rw [if_pos h1, foldl_improve_eq_running]
      simp only [sentinel]
      rw [mul_comm]

/-- C8, on the three-alter effect in maximum mode (centered values 3 for the ego
and 2, 5, -1 for the alters).  On current values that differ from the centered
ones, 10 for the ego and 7, -4, 6 for the alters, the ego statistic is
`10 * 7 = 70`; on the centered values themselves it is `3 * 5 = 15`, and
`1 * 15 = 3 * changeContribution(0, 1)`. -/
theorem C8_ego_statistic_same_aggregate_witness :
    currentValuesExample 1 ≠ (effectThreeAlters false).centeredValue 1 ∧
      (effectThreeAlters false).egoStatistic 0 currentValuesExample = 70 ∧
      (effectThreeAlters false).egoStatistic 0 (effectThreeAlters false).centeredValue = 15 ∧
      ((1 : Int) : ℚ) *
          (effectThreeAlters false).egoStatistic 0 (effectThreeAlters false).centeredValue =
        (effectThreeAlters false).centeredValue 0 *
          (effectThreeAlters false).calculateChangeContribution 0 1 :=
  have h7 : IsExtremeOfAlters (effectThreeAlters false).lminim currentValuesExample
      ((effectThreeAlters false).pNetwork.outTies 0) 7 := by
    refine ⟨⟨1, by simp [effectThreeAlters], by simp [currentValuesExample]⟩, ?_⟩
    intro a ha
    simp only [effectThreeAlters, if_true, List.mem_cons, List.mem_singleton,
      List.not_mem_nil, or_false] at ha
    rcases ha with rfl | rfl | rfl <;> norm_num [effectThreeAlters, currentValuesExample]
  have h5 : IsExtremeOfAlters (effectThreeAlters false).lminim
      (effectThreeAlters false).centeredValue
      ((effectThreeAlters false).pNetwork.outTies 0) 5 := by
    refine ⟨⟨2, by simp [effectThreeAlters], by simp [effectThreeAlters]⟩, ?_⟩
    intro a ha
    simp only [effectThreeAlters, if_true, List.mem_cons, List.mem_singleton,
      List.not_mem_nil, or_false] at ha
    rcases ha with rfl | rfl | rfl <;> norm_num [effectThreeAlters]
  ⟨by norm_num [effectThreeAlters, currentValuesExample],
    ((C8_ego_statistic_same_aggregate (effectThreeAlters false) 0 currentValuesExample 1
      (by decide)).1 7 h7).trans (by norm_num [effectThreeAlters, currentValuesExample]),
    ((C8_ego_statistic_same_aggregate (effectThreeAlters false) 0
      (effectThreeAlters false).centeredValue 1 (by decide)).1 5 h5).trans
      (by norm_num [effectThreeAlters]),
    (C8_ego_statistic_same_aggregate (effectThreeAlters false) 0
      (effectThreeAlters false).centeredValue 1 (by decide)).2.2.2.1 (fun _ => rfl)⟩

end MaxAlterEffect

end siena
